import Mathlib

/-!
Verification of the background click scheduler (`ClickWorker`) of the
auto-clicker program (`src/main.py`).

The worker is embedded shallowly: `ClickWorker.run` is modelled as a pure
function of the worker configuration, an environment oracle `Env`
(when the asynchronous stop request becomes visible, which pointer-driver
invocations raise, whether installing the keyboard listener raises), and a
fuel bound for the unbounded main loop.  The run produces a trace of
micro-events (Qt signal emissions, pointer-driver invocations, stop-flag
polls and sleeps) together with the terminal state and the final keyboard
listener status.

Correspondence to the Python source:
  * `ClickWorker` fields            — the attributes set by `configure` (lines 146-154)
  * `ClickWorker.move_to_target_if_needed` — `_move_to_target_if_needed` (lines 181-186)
  * `ClickWorker.click_once`        — `_click_once` (lines 188-209)
  * `countdownLoop`                 — the countdown for-loop (lines 218-225)
  * `waitLoop` / `waitLoopAux`      — the inter-click wait loop (lines 246-251)
  * `ClickWorker.mainLoop`          — the while-loop (lines 233-251)
  * `ClickWorker.run`               — `run` (lines 211-263), including the
                                       `except`/`finally` clauses

Each read of the `_stop_requested` flag is numbered; the oracle field
`Env.stopAt` gives the read index from which the flag is observed true
(the flag is only ever set, never cleared, during a run, so reads are
monotone).  Sleeps advance an idealised millisecond clock; an atomic
`Event.sleepMs d` models one uninterruptible blocking `time.sleep` call
of `d` milliseconds.
-/

namespace AutoClicker

/-- Mouse button passed to the pynput click call. -/
inductive MouseButton
  | left
  | right
deriving DecidableEq, Repr

/-- Micro-events observable during one run of the worker: the four Qt
signals (`status`, `progress`, `error`, `finished`), pointer-driver
invocations (`moveTo`, `click`), and the scheduling primitives
(`sleepMs`, `poll` of the stop flag with its read index and value). -/
inductive Event
  | status : String → Event
  | progress : Nat → Event
  | error : String → Event
  | finished : Event
  | moveTo : Int × Int → Event
  | click : MouseButton → Nat → Event
  | sleepMs : Nat → Event
  | poll : Nat → Bool → Event
deriving DecidableEq, Repr

/-- Terminal state of a run, following the spec names: `Stopped` covers
both a countdown abort ("Start aborted.") and a mid-run stop
("Stopped by user."). -/
inductive RunState
  | Completed
  | Stopped
  | Errored
deriving DecidableEq, Repr

/-- Environment oracle: when the asynchronous stop request becomes
visible (`stopAt` = index of the first read of `_stop_requested` that
returns `true`; `none` = never), which `moveTo` / `click` driver
invocations raise an exception (by invocation index), and whether
`_start_keyboard_listener` raises. -/
structure Env where
  stopAt : Option Nat
  moveFail : Nat → Bool
  clickFail : Nat → Bool
  listenerFail : Bool

/-- Value of the k-th read of `self._stop_requested`. -/
def stopRead (env : Env) (k : Nat) : Bool :=
  match env.stopAt with
  | none => false
  | some n => decide (n ≤ k)

/-- Worker configuration: the attributes of the Python `ClickWorker`
object as set by `configure` (src/main.py lines 146-154).  `mode` and
`target_mode` are kept as strings because the source dispatches on
string equality. -/
structure ClickWorker where
  interval_ms : Nat
  mode : String
  total_clicks : Option Nat
  countdown : Bool
  target_mode : String
  target_pos : Option (Int × Int)
deriving DecidableEq, Repr

/-- Result of `ClickWorker.run`: the event trace, the terminal state
(`none` when the loop fuel ran out, i.e. the real loop has not yet
returned), and whether the keyboard listener is still installed at
return. -/
structure RunOut where
  events : List Event
  state : Option RunState
  listener : Bool
deriving DecidableEq, Repr

/-- Exit of the main while-loop: `normal` (condition false or `break`),
`errored` (a driver invocation raised), or `fuelOut` (fuel exhausted;
the real loop would keep running).  Carries the next stop-read index
and the local `performed` counter. -/
inductive LoopExit
  | normal (k performed : Nat)
  | errored (k performed : Nat)
  | fuelOut (k performed : Nat)
deriving DecidableEq, Repr

/-- The countdown for-loop (src/main.py lines 218-225): for each tick,
read the stop flag (one poll); if set, emit "Start aborted." and
`finished` and return (flag `true` = aborted); otherwise emit the
"Starting in i" status and block in a single uninterruptible
`time.sleep(1)` — one atomic 1000 ms sleep event, with no poll inside. -/
def countdownLoop (env : Env) : Nat → List Nat → List Event × Nat × Bool
  | k, [] => ([], k, false)
  | k, i :: rest =>
    if stopRead env k then
      ([Event.poll k true, Event.status "Start aborted.", Event.finished], k + 1, true)
    else
      let r := countdownLoop env (k + 1) rest
      (Event.poll k false ::
        Event.status ("Starting in " ++ toString i ++ "... (press ESC to cancel)") ::
        Event.sleepMs 1000 :: r.1, r.2)

/-- One step-bounded unfolding of the inter-click wait loop
(src/main.py lines 246-251): poll the stop flag; if set, exit at once;
if the clock reached `target`, exit; otherwise sleep
`min(0.01, target - now)` — a chunk of at most 10 ms — and repeat.
`fuel` is a structural recursion bound; `waitLoop` supplies fuel
`target - clock`, which is sufficient because every chunk advances the
clock by at least 1 ms, so the bound is never hit before a real exit. -/
def waitLoopAux (env : Env) (target : Nat) : Nat → Nat → Nat → List Event × Nat × Nat
  | 0, k, clock => ([Event.poll k (stopRead env k)], k + 1, clock)
  | fuel + 1, k, clock =>
    if stopRead env k then ([Event.poll k true], k + 1, clock)
    else if target ≤ clock then ([Event.poll k false], k + 1, clock)
    else
      let chunk := min 10 (target - clock)
      let r := waitLoopAux env target fuel (k + 1) (clock + chunk)
      (Event.poll k false :: Event.sleepMs chunk :: r.1, r.2)

/-- The inter-click wait loop: returns (events, next read index, new clock). -/
def waitLoop (env : Env) (k clock target : Nat) : List Event × Nat × Nat :=
  waitLoopAux env target (target - clock) k clock

/-- Model of `_move_to_target_if_needed` (src/main.py lines 181-186):
in `"fixed"` mode with a configured position, the driver move is
invoked with exactly that position (an exception from the assignment is
re-raised as `RuntimeError`); otherwise nothing happens.  Returns
(events, next move-invocation index, raised?). -/
def ClickWorker.move_to_target_if_needed (w : ClickWorker) (env : Env) (mIdx : Nat) :
    List Event × Nat × Bool :=
  if w.target_mode = "fixed" then
    match w.target_pos with
    | some p => ([Event.moveTo p], mIdx + 1, env.moveFail mIdx)
    | none => ([], mIdx, false)
  else ([], mIdx, false)

/-- Button used by `_click_once` for each mode string (the fallback
branch clicks left). -/
def clickButton (mode : String) : MouseButton :=
  if mode = "Left" then MouseButton.left
  else if mode = "Right" then MouseButton.right
  else MouseButton.left

/-- Repeat count requested by `_click_once` for each mode string:
`"Double (left)"` requests `2 if remaining >= 2 else 1`; every other
mode requests 1 (src/main.py lines 195-207). -/
def requestedClicks (mode : String) (remaining : Int) : Nat :=
  if mode = "Left" then 1
  else if mode = "Right" then 1
  else if mode = "Double (left)" then (if 2 ≤ remaining then 2 else 1)
  else 1

/-- Model of `_click_once` (src/main.py lines 188-209): one driver
click invocation with the mode's button and repeat count; on an OS
failure (oracle `clickFail` at this invocation index) the exception is
re-raised as `RuntimeError` and no count is returned.  Returns
(events, next click-invocation index, `some produced` or `none`). -/
def ClickWorker.click_once (w : ClickWorker) (env : Env) (cIdx : Nat) (remaining : Int) :
    List Event × Nat × Option Nat :=
  let n := requestedClicks w.mode remaining
  ([Event.click (clickButton w.mode) n], cIdx + 1,
    if env.clickFail cIdx then none else some n)

/-- Break test of the main loop: `remaining is not None and remaining <= 0`. -/
def shouldBreak : Option Int → Bool
  | some r => decide (r ≤ 0)
  | none => false

/-- The main while-loop of `run` (src/main.py lines 233-251).  One
iteration: read the loop condition (one poll; exit `normal` if the stop
flag is set); compute `remaining = total - performed` and `break` if it
is `≤ 0`; move to the fixed target if configured (a raise exits
`errored`); perform one click action with `remaining` (or 2 when
unbounded; a raise exits `errored`); add the produced clicks to
`performed` and emit a progress event; run the inter-click wait loop;
recurse.  `fuel` bounds the number of iterations of this otherwise
possibly unbounded loop. -/
def ClickWorker.mainLoop (w : ClickWorker) (env : Env) :
    Nat → Nat → Nat → Nat → Nat → Nat → List Event × LoopExit
  | 0, k, _, _, performed, _ => ([], LoopExit.fuelOut k performed)
  | fuel + 1, k, mIdx, cIdx, performed, clock =>
    if stopRead env k then
      ([Event.poll k true], LoopExit.normal (k + 1) performed)
    else
      let remaining : Option Int := w.total_clicks.map (fun (t : Nat) => (t : Int) - (performed : Int))
      if shouldBreak remaining then
        ([Event.poll k false], LoopExit.normal (k + 1) performed)
      else
        let mv := w.move_to_target_if_needed env mIdx
        if mv.2.2 then
          (Event.poll k false :: mv.1, LoopExit.errored (k + 1) performed)
        else
          let rPass : Int := match remaining with | some r => r | none => 2
          let ck := w.click_once env cIdx rPass
          match ck.2.2 with
          | none =>
            (Event.poll k false :: (mv.1 ++ ck.1), LoopExit.errored (k + 1) performed)
          | some produced =>
            let performed' := performed + produced
            let wl := waitLoop env (k + 1) clock (clock + max 1 w.interval_ms)
            let rest := ClickWorker.mainLoop w env fuel wl.2.1 mv.2.1 ck.2.1 performed' wl.2.2
            (Event.poll k false ::
              (mv.1 ++ ck.1 ++ Event.progress performed' :: wl.1 ++ rest.1), rest.2)

/-- The countdown phase of `run`: the `if self.countdown:` guard around
the countdown for-loop (src/main.py lines 218-225).  Returns the phase
events, the next stop-read index, and whether the run was aborted. -/
def countdownPhase (w : ClickWorker) (env : Env) : List Event × Nat × Bool :=
  if w.countdown then countdownLoop env 0 [3, 2, 1] else ([], 0, false)

/-- Model of `ClickWorker.run` (src/main.py lines 211-263).  Paths:
countdown abort (emits "Start aborted." plus `finished` inside the
loop, then the `finally` block emits `finished` again); a raise from
`_start_keyboard_listener` (caught by the generic `except Exception`,
one error event, no clicks); otherwise the "Running" status, the main
loop, and then either the errored path (`except RuntimeError`, one
error event), or the normal path, which re-reads the stop flag once
more to choose between "Stopped by user." and "Completed.".  Every
terminating path runs the `finally` block: the listener is torn down
and `finished` is emitted. -/
def ClickWorker.run (w : ClickWorker) (env : Env) (fuel : Nat) : RunOut :=
  let cd := countdownPhase w env
  if cd.2.2 then
    { events := cd.1 ++ [Event.finished], state := some RunState.Stopped, listener := false }
  else if env.listenerFail then
    { events := cd.1 ++ [Event.error "Unexpected error: keyboard listener", Event.finished],
      state := some RunState.Errored, listener := false }
  else
    let res := ClickWorker.mainLoop w env fuel cd.2.1 0 0 0 0
    match res.2 with
    | LoopExit.fuelOut _ _ =>
      { events := cd.1 ++ Event.status "Running (ESC to stop)..." :: res.1,
        state := none, listener := true }
    | LoopExit.errored _ _ =>
      { events := cd.1 ++ Event.status "Running (ESC to stop)..." :: res.1
          ++ [Event.error "Automation error", Event.finished],
        state := some RunState.Errored, listener := false }
    | LoopExit.normal k _ =>
      { events := cd.1 ++ Event.status "Running (ESC to stop)..." :: res.1
          ++ [Event.poll k (stopRead env k),
              Event.status (if stopRead env k then "Stopped by user." else "Completed."),
              Event.finished],
        state := some (if stopRead env k then RunState.Stopped else RunState.Completed),
        listener := false }

/-! ### Trace observation helpers -/

/-- Values carried by the progress events of a trace, in order. -/
def progressValues (l : List Event) : List Nat :=
  l.filterMap fun e => match e with | Event.progress n => some n | _ => none

/-- Requested repeat counts of the click invocations of a trace, in order. -/
def clickCounts (l : List Event) : List Nat :=
  l.filterMap fun e => match e with | Event.click _ n => some n | _ => none

/-- Target coordinates of the move invocations of a trace, in order. -/
def moveTargets (l : List Event) : List (Int × Int) :=
  l.filterMap fun e => match e with | Event.moveTo p => some p | _ => none

/-- Durations of the atomic sleep events of a trace, in order. -/
def sleepDurations (l : List Event) : List Nat :=
  l.filterMap fun e => match e with | Event.sleepMs d => some d | _ => none

/-- Test for an error event. -/
def isError : Event → Bool
  | Event.error _ => true
  | _ => false

/-- Test for a finished event. -/
def isFinished : Event → Bool
  | Event.finished => true
  | _ => false

/-- Test for a click invocation. -/
def isClick : Event → Bool
  | Event.click _ _ => true
  | _ => false

/-- Test for a move invocation. -/
def isMove : Event → Bool
  | Event.moveTo _ => true
  | _ => false

/-- Test for a stop-flag poll. -/
def isPoll : Event → Bool
  | Event.poll _ _ => true
  | _ => false

/-- Number of error events in a trace. -/
def countErrors (l : List Event) : Nat := l.countP isError

/-- Number of finished events in a trace. -/
def countFinished (l : List Event) : Nat := l.countP isFinished

/-- Number of click invocations in a trace. -/
def countClicks (l : List Event) : Nat := l.countP isClick

/-- Number of move invocations in a trace. -/
def countMoves (l : List Event) : Nat := l.countP isMove

/-- Number of stop-flag polls in a trace. -/
def countPolls (l : List Event) : Nat := l.countP isPoll

/-- Checks that every click invocation in a trace is immediately
preceded by a move to exactly `p`. -/
def clicksPrecededBy (p : Int × Int) : List Event → Bool
  | Event.moveTo q :: Event.click _ _ :: rest =>
    decide (q = p) && clicksPrecededBy p rest
  | Event.click _ _ :: _ => false
  | _ :: rest => clicksPrecededBy p rest
  | [] => true

/-- An environment with no stop request and no failures. -/
def envOk : Env :=
  { stopAt := none, moveFail := fun _ => false, clickFail := fun _ => false,
    listenerFail := false }

/-! ### Shape of the sub-traces -/

/-- Every event of the inter-click wait loop is a stop-flag poll or a
sleep chunk of at most 10 ms. -/
theorem waitLoopAux_mem (env : Env) (target : Nat) :
    ∀ fuel k clock, ∀ e ∈ (waitLoopAux env target fuel k clock).1,
      (∃ i b, e = Event.poll i b) ∨ ∃ d, e = Event.sleepMs d ∧ d ≤ 10 := by
  intro fuel
  induction fuel with
  | zero =>
    intro k clock e he
    simp only [waitLoopAux, List.mem_singleton] at he
    exact Or.inl ⟨k, stopRead env k, he⟩
  | succ n ih =>
    intro k clock e he
    simp only [waitLoopAux] at he
    split at he
    · simp only [List.mem_singleton] at he
      exact Or.inl ⟨k, true, he⟩
    · split at he
      · simp only [List.mem_singleton] at he
        exact Or.inl ⟨k, false, he⟩
      · simp only [List.mem_cons] at he
        rcases he with rfl | rfl | he
        · exact Or.inl ⟨k, false, rfl⟩
        · exact Or.inr ⟨min 10 (target - clock), rfl, Nat.min_le_left 10 (target - clock)⟩
        · exact ih (k + 1) (clock + min 10 (target - clock)) e he

/-- Every event of the countdown loop is a poll, a status message, an
atomic full-second (1000 ms) sleep, or a finished signal. -/
theorem countdownLoop_mem (env : Env) :
    ∀ l k, ∀ e ∈ (countdownLoop env k l).1,
      (∃ i b, e = Event.poll i b) ∨ (∃ s, e = Event.status s) ∨
        e = Event.sleepMs 1000 ∨ e = Event.finished := by
  intro l
  induction l with
  | nil => intro k e he; simp [countdownLoop] at he
  | cons i rest ih =>
    intro k e he
    simp only [countdownLoop] at he
    split at he
    · simp only [List.mem_cons, List.not_mem_nil, or_false] at he
      rcases he with rfl | rfl | rfl
      · exact Or.inl ⟨k, true, rfl⟩
      · exact Or.inr (Or.inl ⟨_, rfl⟩)
      · exact Or.inr (Or.inr (Or.inr rfl))
    · simp only [List.mem_cons] at he
      rcases he with rfl | rfl | rfl | he
      · exact Or.inl ⟨k, false, rfl⟩
      · exact Or.inr (Or.inl ⟨_, rfl⟩)
      · exact Or.inr (Or.inr (Or.inl rfl))
      · exact ih (k + 1) e he

/-- Every event of `_move_to_target_if_needed` is a move to the
configured target position. -/
theorem move_to_target_if_needed_mem (w : ClickWorker) (env : Env) (mIdx : Nat) :
    ∀ e ∈ (w.move_to_target_if_needed env mIdx).1,
      ∃ p, e = Event.moveTo p ∧ w.target_pos = some p := by
  intro e he
  unfold ClickWorker.move_to_target_if_needed at he
  split at he
  · split at he
    · next p hp =>
      simp only [List.mem_singleton] at he
      exact ⟨p, he, hp⟩
    · simp at he
  · simp at he

/-- In a non-fixed target mode, `_move_to_target_if_needed` does nothing. -/
theorem move_to_target_if_needed_follow (w : ClickWorker) (env : Env) (mIdx : Nat)
    (h : ¬ w.target_mode = "fixed") :
    w.move_to_target_if_needed env mIdx = ([], mIdx, false) := by
  unfold ClickWorker.move_to_target_if_needed
  simp [h]

/-- In fixed mode with a configured position, the move trace is exactly
one move invocation at that position. -/
theorem move_to_target_if_needed_fixed (w : ClickWorker) (env : Env) (mIdx : Nat)
    (p : Int × Int) (hm : w.target_mode = "fixed") (hp : w.target_pos = some p) :
    w.move_to_target_if_needed env mIdx = ([Event.moveTo p], mIdx + 1, env.moveFail mIdx) := by
  unfold ClickWorker.move_to_target_if_needed
  simp [hm, hp]

/-- The click trace of `_click_once` is exactly one click invocation
with the mode's button and repeat count. -/
theorem click_once_events (w : ClickWorker) (env : Env) (cIdx : Nat) (r : Int) :
    (w.click_once env cIdx r).1 =
      [Event.click (clickButton w.mode) (requestedClicks w.mode r)] := rfl

/-- A successful `_click_once` produces exactly the requested count. -/
theorem click_once_produced (w : ClickWorker) (env : Env) (cIdx : Nat) (r : Int)
    (produced : Nat) (h : (w.click_once env cIdx r).2.2 = some produced) :
    produced = requestedClicks w.mode r := by
  unfold ClickWorker.click_once at h
  split at h
  · simp at h
  · simpa using h.symm

/-- An action always requests at least one physical click. -/
theorem one_le_requestedClicks (mode : String) (r : Int) : 1 ≤ requestedClicks mode r := by
  unfold requestedClicks
  split_ifs <;> omega

/-- An action never requests more clicks than a positive remaining quota. -/
theorem requestedClicks_le (mode : String) (r : Int) (h : 1 ≤ r) :
    (requestedClicks mode r : Int) ≤ r := by
  unfold requestedClicks
  split_ifs <;> simp <;> omega

/-! ### Observations of the sub-traces -/

/-- The wait loop emits no progress events. -/
theorem progressValues_waitLoopAux (env : Env) (target fuel k clock : Nat) :
    progressValues (waitLoopAux env target fuel k clock).1 = [] := by
  rw [progressValues, List.filterMap_eq_nil_iff]
  intro e he
  rcases waitLoopAux_mem env target fuel k clock e he with ⟨i, b, rfl⟩ | ⟨d, rfl, _⟩ <;> rfl

/-- The wait loop emits no click invocations. -/
theorem clickCounts_waitLoopAux (env : Env) (target fuel k clock : Nat) :
    clickCounts (waitLoopAux env target fuel k clock).1 = [] := by
  rw [clickCounts, List.filterMap_eq_nil_iff]
  intro e he
  rcases waitLoopAux_mem env target fuel k clock e he with ⟨i, b, rfl⟩ | ⟨d, rfl, _⟩ <;> rfl

/-- The wait loop emits no move invocations. -/
theorem moveTargets_waitLoopAux (env : Env) (target fuel k clock : Nat) :
    moveTargets (waitLoopAux env target fuel k clock).1 = [] := by
  rw [moveTargets, List.filterMap_eq_nil_iff]
  intro e he
  rcases waitLoopAux_mem env target fuel k clock e he with ⟨i, b, rfl⟩ | ⟨d, rfl, _⟩ <;> rfl

/-- The wait loop emits no error events. -/
theorem countErrors_waitLoopAux (env : Env) (target fuel k clock : Nat) :
    countErrors (waitLoopAux env target fuel k clock).1 = 0 := by
  rw [countErrors, List.countP_eq_zero]
  intro e he
  rcases waitLoopAux_mem env target fuel k clock e he with ⟨i, b, rfl⟩ | ⟨d, rfl, _⟩ <;>
    simp [isError]

/-- The wait loop emits no finished events. -/
theorem countFinished_waitLoopAux (env : Env) (target fuel k clock : Nat) :
    countFinished (waitLoopAux env target fuel k clock).1 = 0 := by
  rw [countFinished, List.countP_eq_zero]
  intro e he
  rcases waitLoopAux_mem env target fuel k clock e he with ⟨i, b, rfl⟩ | ⟨d, rfl, _⟩ <;>
    simp [isFinished]

/-- The wait loop performs no clicks. -/
theorem countClicks_waitLoopAux (env : Env) (target fuel k clock : Nat) :
    countClicks (waitLoopAux env target fuel k clock).1 = 0 := by
  rw [countClicks, List.countP_eq_zero]
  intro e he
  rcases waitLoopAux_mem env target fuel k clock e he with ⟨i, b, rfl⟩ | ⟨d, rfl, _⟩ <;>
    simp [isClick]

/-- The wait loop performs no moves. -/
theorem countMoves_waitLoopAux (env : Env) (target fuel k clock : Nat) :
    countMoves (waitLoopAux env target fuel k clock).1 = 0 := by
  rw [countMoves, List.countP_eq_zero]
  intro e he
  rcases waitLoopAux_mem env target fuel k clock e he with ⟨i, b, rfl⟩ | ⟨d, rfl, _⟩ <;>
    simp [isMove]

/-- The countdown emits no progress events. -/
theorem progressValues_countdownLoop (env : Env) (l : List Nat) (k : Nat) :
    progressValues (countdownLoop env k l).1 = [] := by
  rw [progressValues, List.filterMap_eq_nil_iff]
  intro e he
  rcases countdownLoop_mem env l k e he with ⟨i, b, rfl⟩ | ⟨s, rfl⟩ | rfl | rfl <;> rfl

/-- The countdown performs no click invocations. -/
theorem countClicks_countdownLoop (env : Env) (l : List Nat) (k : Nat) :
    countClicks (countdownLoop env k l).1 = 0 := by
  rw [countClicks, List.countP_eq_zero]
  intro e he
  rcases countdownLoop_mem env l k e he with ⟨i, b, rfl⟩ | ⟨s, rfl⟩ | rfl | rfl <;>
    simp [isClick]

/-- The countdown emits no click invocations (count list form). -/
theorem clickCounts_countdownLoop (env : Env) (l : List Nat) (k : Nat) :
    clickCounts (countdownLoop env k l).1 = [] := by
  rw [clickCounts, List.filterMap_eq_nil_iff]
  intro e he
  rcases countdownLoop_mem env l k e he with ⟨i, b, rfl⟩ | ⟨s, rfl⟩ | rfl | rfl <;> rfl

/-- The countdown performs no move invocations. -/
theorem countMoves_countdownLoop (env : Env) (l : List Nat) (k : Nat) :
    countMoves (countdownLoop env k l).1 = 0 := by
  rw [countMoves, List.countP_eq_zero]
  intro e he
  rcases countdownLoop_mem env l k e he with ⟨i, b, rfl⟩ | ⟨s, rfl⟩ | rfl | rfl <;>
    simp [isMove]

/-- The countdown emits no move invocations (target list form). -/
theorem moveTargets_countdownLoop (env : Env) (l : List Nat) (k : Nat) :
    moveTargets (countdownLoop env k l).1 = [] := by
  rw [moveTargets, List.filterMap_eq_nil_iff]
  intro e he
  rcases countdownLoop_mem env l k e he with ⟨i, b, rfl⟩ | ⟨s, rfl⟩ | rfl | rfl <;> rfl

/-- The countdown emits no error events. -/
theorem countErrors_countdownLoop (env : Env) (l : List Nat) (k : Nat) :
    countErrors (countdownLoop env k l).1 = 0 := by
  rw [countErrors, List.countP_eq_zero]
  intro e he
  rcases countdownLoop_mem env l k e he with ⟨i, b, rfl⟩ | ⟨s, rfl⟩ | rfl | rfl <;>
    simp [isError]

/-- Every atomic sleep of the countdown blocks a full 1000 ms. -/
theorem sleepDurations_countdownLoop (env : Env) (l : List Nat) (k : Nat) :
    ∀ d ∈ sleepDurations (countdownLoop env k l).1, d = 1000 := by
  intro d hd
  rw [sleepDurations] at hd
  simp only [List.mem_filterMap] at hd
  obtain ⟨e, he, hmatch⟩ := hd
  rcases countdownLoop_mem env l k e he with ⟨i, b, rfl⟩ | ⟨s, rfl⟩ | rfl | rfl <;> simp_all

/-- The countdown polls the stop flag at most once per tick. -/
theorem countPolls_countdownLoop (env : Env) :
    ∀ (l : List Nat) (k : Nat), countPolls (countdownLoop env k l).1 ≤ l.length := by
  intro l
  induction l with
  | nil => intro k; simp [countdownLoop, countPolls]
  | cons i rest ih =>
    intro k
    simp only [countdownLoop]
    split
    · simp [countPolls, List.countP_cons, isPoll]
    · have := ih (k + 1)
      simp [countPolls, List.countP_cons, isPoll] at this ⊢
      omega

/-- The countdown emits exactly one finished event when it aborts, and
none otherwise. -/
theorem countFinished_countdownLoop (env : Env) :
    ∀ (l : List Nat) (k : Nat),
      countFinished (countdownLoop env k l).1 =
        if (countdownLoop env k l).2.2 then 1 else 0 := by
  intro l
  induction l with
  | nil => intro k; rfl
  | cons i rest ih =>
    intro k
    simp only [countdownLoop]
    split
    · rfl
    · have := ih (k + 1)
      simp only [countFinished, List.countP_cons, isFinished] at this ⊢
      simpa using this

/-- The move helper emits no finished events. -/
theorem countFinished_move (w : ClickWorker) (env : Env) (mIdx : Nat) :
    countFinished (w.move_to_target_if_needed env mIdx).1 = 0 := by
  rw [countFinished, List.countP_eq_zero]
  intro e he
  rcases move_to_target_if_needed_mem w env mIdx e he with ⟨p, rfl, _⟩
  simp [isFinished]

/-- The move helper emits no error events. -/
theorem countErrors_move (w : ClickWorker) (env : Env) (mIdx : Nat) :
    countErrors (w.move_to_target_if_needed env mIdx).1 = 0 := by
  rw [countErrors, List.countP_eq_zero]
  intro e he
  rcases move_to_target_if_needed_mem w env mIdx e he with ⟨p, rfl, _⟩
  simp [isError]

/-- The move helper emits no progress events. -/
theorem progressValues_move (w : ClickWorker) (env : Env) (mIdx : Nat) :
    progressValues (w.move_to_target_if_needed env mIdx).1 = [] := by
  rw [progressValues, List.filterMap_eq_nil_iff]
  intro e he
  rcases move_to_target_if_needed_mem w env mIdx e he with ⟨p, rfl, _⟩
  rfl

/-- The move helper performs no clicks. -/
theorem clickCounts_move (w : ClickWorker) (env : Env) (mIdx : Nat) :
    clickCounts (w.move_to_target_if_needed env mIdx).1 = [] := by
  rw [clickCounts, List.filterMap_eq_nil_iff]
  intro e he
  rcases move_to_target_if_needed_mem w env mIdx e he with ⟨p, rfl, _⟩
  rfl

/-- The move helper performs no clicks (count form). -/
theorem countClicks_move (w : ClickWorker) (env : Env) (mIdx : Nat) :
    countClicks (w.move_to_target_if_needed env mIdx).1 = 0 := by
  rw [countClicks, List.countP_eq_zero]
  intro e he
  rcases move_to_target_if_needed_mem w env mIdx e he with ⟨p, rfl, _⟩
  simp [isClick]

/-- Every move target of the move helper is the configured position. -/
theorem moveTargets_move (w : ClickWorker) (env : Env) (mIdx : Nat) (p : Int × Int)
    (hp : w.target_pos = some p) :
    ∀ q ∈ moveTargets (w.move_to_target_if_needed env mIdx).1, q = p := by
  intro q hq
  rw [moveTargets] at hq
  simp only [List.mem_filterMap] at hq
  obtain ⟨e, he, hmatch⟩ := hq
  rcases move_to_target_if_needed_mem w env mIdx e he with ⟨p', rfl, hp'⟩
  rw [hp] at hp'
  cases hp'
  simpa using hmatch.symm

/-! ### Rewriting the observers over cons and append -/

theorem progressValues_nil : progressValues [] = [] := rfl

theorem clickCounts_nil : clickCounts [] = [] := rfl

theorem moveTargets_nil : moveTargets [] = [] := rfl

theorem sleepDurations_nil : sleepDurations [] = [] := rfl

theorem countErrors_nil : countErrors [] = 0 := rfl

theorem countFinished_nil : countFinished [] = 0 := rfl

theorem countClicks_nil : countClicks [] = 0 := rfl

theorem countMoves_nil : countMoves [] = 0 := rfl

theorem countPolls_nil : countPolls [] = 0 := rfl

theorem progressValues_cons (e : Event) (l : List Event) :
    progressValues (e :: l) =
      match e with
      | Event.progress n => n :: progressValues l
      | _ => progressValues l := by
  cases e <;> rfl

theorem progressValues_append (l₁ l₂ : List Event) :
    progressValues (l₁ ++ l₂) = progressValues l₁ ++ progressValues l₂ :=
  List.filterMap_append l₁ l₂ _

theorem clickCounts_cons (e : Event) (l : List Event) :
    clickCounts (e :: l) =
      match e with
      | Event.click _ n => n :: clickCounts l
      | _ => clickCounts l := by
  cases e <;> rfl

theorem clickCounts_append (l₁ l₂ : List Event) :
    clickCounts (l₁ ++ l₂) = clickCounts l₁ ++ clickCounts l₂ :=
  List.filterMap_append l₁ l₂ _

theorem moveTargets_cons (e : Event) (l : List Event) :
    moveTargets (e :: l) =
      match e with
      | Event.moveTo p => p :: moveTargets l
      | _ => moveTargets l := by
  cases e <;> rfl

theorem moveTargets_append (l₁ l₂ : List Event) :
    moveTargets (l₁ ++ l₂) = moveTargets l₁ ++ moveTargets l₂ :=
  List.filterMap_append l₁ l₂ _

theorem sleepDurations_cons (e : Event) (l : List Event) :
    sleepDurations (e :: l) =
      match e with
      | Event.sleepMs d => d :: sleepDurations l
      | _ => sleepDurations l := by
  cases e <;> rfl

theorem sleepDurations_append (l₁ l₂ : List Event) :
    sleepDurations (l₁ ++ l₂) = sleepDurations l₁ ++ sleepDurations l₂ :=
  List.filterMap_append l₁ l₂ _

theorem countErrors_cons (e : Event) (l : List Event) :
    countErrors (e :: l) = countErrors l + if isError e then 1 else 0 :=
  List.countP_cons isError e l

theorem countErrors_append (l₁ l₂ : List Event) :
    countErrors (l₁ ++ l₂) = countErrors l₁ + countErrors l₂ :=
  List.countP_append isError l₁ l₂

theorem countFinished_cons (e : Event) (l : List Event) :
    countFinished (e :: l) = countFinished l + if isFinished e then 1 else 0 :=
  List.countP_cons isFinished e l

theorem countFinished_append (l₁ l₂ : List Event) :
    countFinished (l₁ ++ l₂) = countFinished l₁ + countFinished l₂ :=
  List.countP_append isFinished l₁ l₂

theorem countClicks_cons (e : Event) (l : List Event) :
    countClicks (e :: l) = countClicks l + if isClick e then 1 else 0 :=
  List.countP_cons isClick e l

theorem countClicks_append (l₁ l₂ : List Event) :
    countClicks (l₁ ++ l₂) = countClicks l₁ + countClicks l₂ :=
  List.countP_append isClick l₁ l₂

theorem countMoves_cons (e : Event) (l : List Event) :
    countMoves (e :: l) = countMoves l + if isMove e then 1 else 0 :=
  List.countP_cons isMove e l

theorem countMoves_append (l₁ l₂ : List Event) :
    countMoves (l₁ ++ l₂) = countMoves l₁ + countMoves l₂ :=
  List.countP_append isMove l₁ l₂

/-! ### Observer values on the click trace and the wait loop -/

theorem progressValues_click (w : ClickWorker) (env : Env) (cIdx : Nat) (r : Int) :
    progressValues (w.click_once env cIdx r).1 = [] := rfl

theorem clickCounts_click (w : ClickWorker) (env : Env) (cIdx : Nat) (r : Int) :
    clickCounts (w.click_once env cIdx r).1 = [requestedClicks w.mode r] := rfl

theorem moveTargets_click (w : ClickWorker) (env : Env) (cIdx : Nat) (r : Int) :
    moveTargets (w.click_once env cIdx r).1 = [] := rfl

theorem countErrors_click (w : ClickWorker) (env : Env) (cIdx : Nat) (r : Int) :
    countErrors (w.click_once env cIdx r).1 = 0 := rfl

theorem countFinished_click (w : ClickWorker) (env : Env) (cIdx : Nat) (r : Int) :
    countFinished (w.click_once env cIdx r).1 = 0 := rfl

theorem countClicks_click (w : ClickWorker) (env : Env) (cIdx : Nat) (r : Int) :
    countClicks (w.click_once env cIdx r).1 = 1 := rfl

theorem countMoves_click (w : ClickWorker) (env : Env) (cIdx : Nat) (r : Int) :
    countMoves (w.click_once env cIdx r).1 = 0 := rfl

theorem countMoves_move (w : ClickWorker) (env : Env) (mIdx : Nat) :
    countMoves (w.move_to_target_if_needed env mIdx).1 ≤ 1 := by
  unfold ClickWorker.move_to_target_if_needed
  split
  · split <;> simp [countMoves, List.countP_cons, isMove]
  · simp [countMoves]

theorem progressValues_waitLoop (env : Env) (k clock target : Nat) :
    progressValues (waitLoop env k clock target).1 = [] :=
  progressValues_waitLoopAux env target (target - clock) k clock

theorem clickCounts_waitLoop (env : Env) (k clock target : Nat) :
    clickCounts (waitLoop env k clock target).1 = [] :=
  clickCounts_waitLoopAux env target (target - clock) k clock

theorem moveTargets_waitLoop (env : Env) (k clock target : Nat) :
    moveTargets (waitLoop env k clock target).1 = [] :=
  moveTargets_waitLoopAux env target (target - clock) k clock

theorem countErrors_waitLoop (env : Env) (k clock target : Nat) :
    countErrors (waitLoop env k clock target).1 = 0 :=
  countErrors_waitLoopAux env target (target - clock) k clock

theorem countFinished_waitLoop (env : Env) (k clock target : Nat) :
    countFinished (waitLoop env k clock target).1 = 0 :=
  countFinished_waitLoopAux env target (target - clock) k clock

theorem countClicks_waitLoop (env : Env) (k clock target : Nat) :
    countClicks (waitLoop env k clock target).1 = 0 :=
  countClicks_waitLoopAux env target (target - clock) k clock

theorem countMoves_waitLoop (env : Env) (k clock target : Nat) :
    countMoves (waitLoop env k clock target).1 = 0 :=
  countMoves_waitLoopAux env target (target - clock) k clock

/-! ### Invariants of the main loop -/

/-- Progress events of the main loop are strictly increasing, starting
strictly above the entry value of `performed`. -/
theorem mainLoop_chain (w : ClickWorker) (env : Env) :
    ∀ fuel k mIdx cIdx performed clock,
      List.Chain' (· < ·)
        (performed ::
          progressValues (ClickWorker.mainLoop w env fuel k mIdx cIdx performed clock).1) := by
  intro fuel
  induction fuel with
  | zero =>
    intro k mIdx cIdx performed clock
    simp [ClickWorker.mainLoop, progressValues]
  | succ n ih =>
    intro k mIdx cIdx performed clock
    simp only [ClickWorker.mainLoop]
    split
    · simp [progressValues_cons, progressValues]
    · split
      · simp [progressValues_cons, progressValues]
      · split
        · simp [progressValues_cons, progressValues_move]
        · split
          · simp [progressValues_cons, progressValues_append, progressValues_move,
              progressValues_click]
          · next produced heq =>
            have h1 : 1 ≤ produced := by
              rw [click_once_produced w env cIdx _ produced heq]
              exact one_le_requestedClicks _ _
            simp only [progressValues_cons, progressValues_append, progressValues_move,
              progressValues_click, progressValues_waitLoop, List.nil_append]
            exact List.chain'_cons.mpr ⟨by omega, ih _ _ _ _ _⟩

/-- With a bounded plan, the main loop never reports more than
`total_clicks` performed clicks. -/
theorem mainLoop_le (w : ClickWorker) (env : Env) (T : Nat) (hT : w.total_clicks = some T) :
    ∀ fuel k mIdx cIdx performed clock, performed ≤ T →
      ∀ m ∈ progressValues (ClickWorker.mainLoop w env fuel k mIdx cIdx performed clock).1,
        m ≤ T := by
  intro fuel
  induction fuel with
  | zero =>
    intro k mIdx cIdx performed clock hp m hm
    simp [ClickWorker.mainLoop, progressValues] at hm
  | succ n ih =>
    intro k mIdx cIdx performed clock hp m hm
    simp only [ClickWorker.mainLoop, hT, Option.map_some'] at hm
    split at hm
    · simp [progressValues_cons, progressValues] at hm
    · split at hm
      · simp [progressValues_cons, progressValues] at hm
      · next hbreak =>
        split at hm
        · simp [progressValues_cons, progressValues_move] at hm
        · split at hm
          · simp [progressValues_cons, progressValues_append, progressValues_move,
              progressValues_click] at hm
          · next produced heq =>
            have hbreak' : ¬ ((T : Int) - (performed : Int) ≤ 0) := by
              intro hc
              exact hbreak (by simp [shouldBreak, hc])
            have hprod : (produced : Int) ≤ (T : Int) - (performed : Int) := by
              rw [click_once_produced w env cIdx _ produced heq]
              exact requestedClicks_le w.mode _ (by omega)
            simp [progressValues_cons, progressValues_append, progressValues_move,
              progressValues_click, progressValues_waitLoop] at hm
            rcases hm with rfl | hm
            · omega
            · exact ih _ _ _ _ _ (by omega) m hm

/-- The main loop itself emits no finished events. -/
theorem countFinished_mainLoop (w : ClickWorker) (env : Env) :
    ∀ fuel k mIdx cIdx performed clock,
      countFinished (ClickWorker.mainLoop w env fuel k mIdx cIdx performed clock).1 = 0 := by
  intro fuel
  induction fuel with
  | zero => intro k mIdx cIdx performed clock; rfl
  | succ n ih =>
    intro k mIdx cIdx performed clock
    simp only [ClickWorker.mainLoop]
    split
    · rfl
    · split
      · rfl
      · split
        · simp [countFinished_cons, countFinished_move, isFinished]
        · split
          · simp [countFinished_cons, countFinished_append, countFinished_move,
              countFinished_click, isFinished]
          · simp [countFinished_cons, countFinished_append, countFinished_move,
              countFinished_click, countFinished_waitLoop, isFinished, ih]

/-- The main loop itself emits no error events. -/
theorem countErrors_mainLoop (w : ClickWorker) (env : Env) :
    ∀ fuel k mIdx cIdx performed clock,
      countErrors (ClickWorker.mainLoop w env fuel k mIdx cIdx performed clock).1 = 0 := by
  intro fuel
  induction fuel with
  | zero => intro k mIdx cIdx performed clock; rfl
  | succ n ih =>
    intro k mIdx cIdx performed clock
    simp only [ClickWorker.mainLoop]
    split
    · rfl
    · split
      · rfl
      · split
        · simp [countErrors_cons, countErrors_move, isError]
        · split
          · simp [countErrors_cons, countErrors_append, countErrors_move,
              countErrors_click, isError]
          · simp [countErrors_cons, countErrors_append, countErrors_move,
              countErrors_click, countErrors_waitLoop, isError, ih]

/-- In an unbounded run, every click invocation of the main loop in
Double (left) mode requests exactly 2 physical clicks. -/
theorem mainLoop_clickCounts_unbounded (w : ClickWorker) (env : Env)
    (hm : w.mode = "Double (left)") (hT : w.total_clicks = none) :
    ∀ fuel k mIdx cIdx performed clock,
      ∀ c ∈ clickCounts (ClickWorker.mainLoop w env fuel k mIdx cIdx performed clock).1,
        c = 2 := by
  have h2 : requestedClicks w.mode 2 = 2 := by
    rw [hm]; decide
  intro fuel
  induction fuel with
  | zero =>
    intro k mIdx cIdx performed clock c hc
    simp [ClickWorker.mainLoop, clickCounts] at hc
  | succ n ih =>
    intro k mIdx cIdx performed clock c hc
    simp only [ClickWorker.mainLoop, hT, Option.map_none'] at hc
    split at hc
    · simp [clickCounts_cons, clickCounts] at hc
    · split at hc
      · simp [clickCounts_cons, clickCounts] at hc
      · split at hc
        · simp [clickCounts_cons, clickCounts_move] at hc
        · split at hc
          · simp [clickCounts_cons, clickCounts_append, clickCounts_move,
              clickCounts_click, h2] at hc
            exact hc
          · simp [clickCounts_cons, clickCounts_append, clickCounts_move,
              clickCounts_click, clickCounts_waitLoop, h2] at hc
            rcases hc with rfl | hc
            · rfl
            · exact ih _ _ _ _ _ c hc

/-- In a non-fixed target mode, the main loop never moves the pointer. -/
theorem countMoves_mainLoop_follow (w : ClickWorker) (env : Env)
    (hf : ¬ w.target_mode = "fixed") :
    ∀ fuel k mIdx cIdx performed clock,
      countMoves (ClickWorker.mainLoop w env fuel k mIdx cIdx performed clock).1 = 0 := by
  intro fuel
  induction fuel with
  | zero => intro k mIdx cIdx performed clock; rfl
  | succ n ih =>
    intro k mIdx cIdx performed clock
    simp only [ClickWorker.mainLoop]
    split
    · rfl
    · split
      · rfl
      · split
        · simp [countMoves_cons, countMoves_nil,
            move_to_target_if_needed_follow w env _ hf, isMove]
        · split
          · simp [countMoves_cons, countMoves_append, countMoves_nil,
              move_to_target_if_needed_follow w env _ hf, countMoves_click, isMove]
          · simp [countMoves_cons, countMoves_append, countMoves_nil,
              move_to_target_if_needed_follow w env _ hf, countMoves_click,
              countMoves_waitLoop, isMove, ih]

/-- In fixed mode, every pointer move of the main loop targets the
configured position. -/
theorem mainLoop_moveTargets_fixed (w : ClickWorker) (env : Env) (p : Int × Int)
    (hp : w.target_pos = some p) :
    ∀ fuel k mIdx cIdx performed clock,
      ∀ q ∈ moveTargets (ClickWorker.mainLoop w env fuel k mIdx cIdx performed clock).1,
        q = p := by
  intro fuel
  induction fuel with
  | zero =>
    intro k mIdx cIdx performed clock q hq
    simp [ClickWorker.mainLoop, moveTargets] at hq
  | succ n ih =>
    intro k mIdx cIdx performed clock q hq
    simp only [ClickWorker.mainLoop] at hq
    split at hq
    · simp [moveTargets_cons, moveTargets] at hq
    · split at hq
      · simp [moveTargets_cons, moveTargets] at hq
      · split at hq
        · simp only [moveTargets_cons] at hq
          exact moveTargets_move w env _ p hp q hq
        · split at hq
          · simp [moveTargets_cons, moveTargets_append, moveTargets_click,
              moveTargets_nil] at hq
            exact moveTargets_move w env _ p hp q hq
          · simp [moveTargets_cons, moveTargets_append, moveTargets_click,
              moveTargets_waitLoop, moveTargets_nil] at hq
            rcases hq with hq | hq
            · exact moveTargets_move w env _ p hp q hq
            · exact ih _ _ _ _ _ q hq

/-- A click-free and move-free prefix does not affect the
move-before-click discipline of a trace. -/
theorem clicksPrecededBy_append_skip (p : Int × Int) :
    ∀ l₁ l₂, (∀ e ∈ l₁, isClick e = false ∧ isMove e = false) →
      clicksPrecededBy p (l₁ ++ l₂) = clicksPrecededBy p l₂ := by
  intro l₁
  induction l₁ with
  | nil => intro l₂ h; rfl
  | cons e t ih =>
    intro l₂ h
    have he := h e (List.mem_cons_self e t)
    have ht : ∀ x ∈ t, isClick x = false ∧ isMove x = false :=
      fun x hx => h x (List.mem_cons_of_mem e hx)
    cases e with
    | moveTo q => simp [isMove] at he
    | click b c => simp [isClick] at he
    | status s => rw [List.cons_append]; simpa [clicksPrecededBy] using ih l₂ ht
    | progress n => rw [List.cons_append]; simpa [clicksPrecededBy] using ih l₂ ht
    | error s => rw [List.cons_append]; simpa [clicksPrecededBy] using ih l₂ ht
    | finished => rw [List.cons_append]; simpa [clicksPrecededBy] using ih l₂ ht
    | sleepMs d => rw [List.cons_append]; simpa [clicksPrecededBy] using ih l₂ ht
    | poll i b => rw [List.cons_append]; simpa [clicksPrecededBy] using ih l₂ ht

/-- The wait loop contains no clicks and no moves. -/
theorem waitLoop_skip (env : Env) (k clock target : Nat) :
    ∀ e ∈ (waitLoop env k clock target).1, isClick e = false ∧ isMove e = false := by
  intro e he
  rcases waitLoopAux_mem env target (target - clock) k clock e he with ⟨i, b, rfl⟩ | ⟨d, rfl, _⟩ <;>
    exact ⟨rfl, rfl⟩

/-- In fixed-target mode, every click invocation of the main loop is
immediately preceded by a pointer move to the configured position. -/
theorem mainLoop_clicksPrecededBy (w : ClickWorker) (env : Env) (p : Int × Int)
    (hm : w.target_mode = "fixed") (hp : w.target_pos = some p) :
    ∀ fuel k mIdx cIdx performed clock,
      clicksPrecededBy p (ClickWorker.mainLoop w env fuel k mIdx cIdx performed clock).1 = true := by
  intro fuel
  induction fuel with
  | zero => intro k mIdx cIdx performed clock; rfl
  | succ n ih =>
    intro k mIdx cIdx performed clock
    simp only [ClickWorker.mainLoop]
    split
    · simp [clicksPrecededBy]
    · split
      · simp [clicksPrecededBy]
      · split
        · simp [move_to_target_if_needed_fixed w env _ p hm hp, clicksPrecededBy]
        · split
          · simp [move_to_target_if_needed_fixed w env _ p hm hp, click_once_events,
              clicksPrecededBy]
          · rw [move_to_target_if_needed_fixed w env _ p hm hp, click_once_events]
            simp only [List.cons_append, List.nil_append, List.singleton_append]
            simp only [clicksPrecededBy, decide_eq_true_eq]
            rw [clicksPrecededBy_append_skip p _ _ (waitLoop_skip env _ _ _)]
            simp [ih]

/-! ### Case analysis of a full run -/

/-- The main-loop invocation of a run, entered with the stop-read index
left by the countdown phase and all counters at zero. -/
def mainPhase (w : ClickWorker) (env : Env) (fuel : Nat) : List Event × LoopExit :=
  ClickWorker.mainLoop w env fuel (countdownPhase w env).2.1 0 0 0 0

/-- `ClickWorker.run` follows exactly one of its five exit paths:
countdown abort, listener-installation failure, fuel exhaustion,
driver error, or normal loop exit. -/
theorem run_cases (w : ClickWorker) (env : Env) (fuel : Nat) :
    ((countdownPhase w env).2.2 = true ∧
      w.run env fuel =
        { events := (countdownPhase w env).1 ++ [Event.finished],
          state := some RunState.Stopped, listener := false }) ∨
    ((countdownPhase w env).2.2 = false ∧ env.listenerFail = true ∧
      w.run env fuel =
        { events := (countdownPhase w env).1 ++
            [Event.error "Unexpected error: keyboard listener", Event.finished],
          state := some RunState.Errored, listener := false }) ∨
    ((countdownPhase w env).2.2 = false ∧ env.listenerFail = false ∧
      (∃ k p, (mainPhase w env fuel).2 = LoopExit.fuelOut k p) ∧
      w.run env fuel =
        { events := (countdownPhase w env).1 ++
            Event.status "Running (ESC to stop)..." :: (mainPhase w env fuel).1,
          state := none, listener := true }) ∨
    ((countdownPhase w env).2.2 = false ∧ env.listenerFail = false ∧
      (∃ k p, (mainPhase w env fuel).2 = LoopExit.errored k p) ∧
      w.run env fuel =
        { events := (countdownPhase w env).1 ++
            Event.status "Running (ESC to stop)..." :: (mainPhase w env fuel).1
            ++ [Event.error "Automation error", Event.finished],
          state := some RunState.Errored, listener := false }) ∨
    ((countdownPhase w env).2.2 = false ∧ env.listenerFail = false ∧
      ∃ k p, (mainPhase w env fuel).2 = LoopExit.normal k p ∧
        w.run env fuel =
          { events := (countdownPhase w env).1 ++
              Event.status "Running (ESC to stop)..." :: (mainPhase w env fuel).1
              ++ [Event.poll k (stopRead env k),
                  Event.status (if stopRead env k then "Stopped by user." else "Completed."),
                  Event.finished],
            state := some (if stopRead env k then RunState.Stopped else RunState.Completed),
            listener := false }) := by
  rcases h1 : (countdownPhase w env).2.2 with _ | _
  · rcases h2 : env.listenerFail with _ | _
    · rcases h3 : (mainPhase w env fuel).2 with ⟨k, p⟩ | ⟨k, p⟩ | ⟨k, p⟩
      · refine Or.inr (Or.inr (Or.inr (Or.inr ⟨rfl, rfl, k, p, rfl, ?_⟩)))
        unfold mainPhase at h3
        simp [ClickWorker.run, mainPhase, h1, h2, h3]
      · refine Or.inr (Or.inr (Or.inr (Or.inl ⟨rfl, rfl, ⟨k, p, rfl⟩, ?_⟩)))
        unfold mainPhase at h3
        simp [ClickWorker.run, mainPhase, h1, h2, h3]
      · refine Or.inr (Or.inr (Or.inl ⟨rfl, rfl, ⟨k, p, rfl⟩, ?_⟩))
        unfold mainPhase at h3
        simp [ClickWorker.run, mainPhase, h1, h2, h3]
    · exact Or.inr (Or.inl ⟨rfl, rfl, by simp [ClickWorker.run, h1, h2]⟩)
  · exact Or.inl ⟨rfl, by simp [ClickWorker.run, h1]⟩

/-- Without a configured countdown, the countdown phase does nothing. -/
theorem countdownPhase_off (w : ClickWorker) (env : Env) (h : w.countdown = false) :
    countdownPhase w env = ([], 0, false) := by
  simp [countdownPhase, h]

/-- The countdown of a run aborts exactly when the stop request becomes
visible within its first three reads of the stop flag. -/
theorem countdownLoop_abort_iff (env : Env) :
    (countdownLoop env 0 [3, 2, 1]).2.2 = true ↔ ∃ n, env.stopAt = some n ∧ n ≤ 2 := by
  rcases hs : env.stopAt with _ | n
  · simp [countdownLoop, stopRead, hs]
  · simp only [countdownLoop, stopRead, hs]
    by_cases h0 : n ≤ 0 <;> by_cases h1 : n ≤ 1 <;> by_cases h2 : n ≤ 2 <;>
      simp [h0, h1, h2] <;> omega

/-- The countdown phase of a countdown-enabled run aborts exactly when
the stop request becomes visible within its first three flag reads. -/
theorem countdownPhase_abort_iff (w : ClickWorker) (env : Env) (h : w.countdown = true) :
    (countdownPhase w env).2.2 = true ↔ ∃ n, env.stopAt = some n ∧ n ≤ 2 := by
  rw [countdownPhase, h]
  simpa using countdownLoop_abort_iff env

/-- The countdown phase performs no clicks. -/
theorem countClicks_countdownPhase (w : ClickWorker) (env : Env) :
    countClicks (countdownPhase w env).1 = 0 := by
  unfold countdownPhase
  split
  · exact countClicks_countdownLoop env _ 0
  · rfl

/-- The countdown phase performs no moves. -/
theorem countMoves_countdownPhase (w : ClickWorker) (env : Env) :
    countMoves (countdownPhase w env).1 = 0 := by
  unfold countdownPhase
  split
  · exact countMoves_countdownLoop env _ 0
  · rfl

/-- The countdown phase emits no progress events. -/
theorem progressValues_countdownPhase (w : ClickWorker) (env : Env) :
    progressValues (countdownPhase w env).1 = [] := by
  unfold countdownPhase
  split
  · exact progressValues_countdownLoop env _ 0
  · rfl

/-- The countdown phase emits no move invocations (target list form). -/
theorem moveTargets_countdownPhase (w : ClickWorker) (env : Env) :
    moveTargets (countdownPhase w env).1 = [] := by
  unfold countdownPhase
  split
  · exact moveTargets_countdownLoop env _ 0
  · rfl

/-- The countdown phase emits no click invocations (count list form). -/
theorem clickCounts_countdownPhase (w : ClickWorker) (env : Env) :
    clickCounts (countdownPhase w env).1 = [] := by
  unfold countdownPhase
  split
  · exact clickCounts_countdownLoop env _ 0
  · rfl

/-- The countdown phase emits no error events. -/
theorem countErrors_countdownPhase (w : ClickWorker) (env : Env) :
    countErrors (countdownPhase w env).1 = 0 := by
  unfold countdownPhase
  split
  · exact countErrors_countdownLoop env _ 0
  · rfl

/-- The countdown phase emits one finished event exactly when it aborts. -/
theorem countFinished_countdownPhase (w : ClickWorker) (env : Env) :
    countFinished (countdownPhase w env).1 =
      if (countdownPhase w env).2.2 then 1 else 0 := by
  unfold countdownPhase
  split
  · exact countFinished_countdownLoop env _ 0
  · rfl

/-- The countdown phase contains no clicks and no moves. -/
theorem countdownPhase_skip (w : ClickWorker) (env : Env) :
    ∀ e ∈ (countdownPhase w env).1, isClick e = false ∧ isMove e = false := by
  intro e he
  unfold countdownPhase at he
  split at he
  · rcases countdownLoop_mem env [3, 2, 1] 0 e he with ⟨i, b, rfl⟩ | ⟨s, rfl⟩ | rfl | rfl <;>
      exact ⟨rfl, rfl⟩
  · simp at he

/-- A trace with no click invocations trivially satisfies the
move-before-click discipline. -/
theorem clicksPrecededBy_of_noclick (p : Int × Int) :
    ∀ l, (∀ e ∈ l, isClick e = false) → clicksPrecededBy p l = true := by
  intro l
  induction l with
  | nil => intro h; rfl
  | cons e t ih =>
    intro h
    have ht : ∀ x ∈ t, isClick x = false := fun x hx => h x (List.mem_cons_of_mem e hx)
    have hih := ih ht
    cases e with
    | click b c =>
      have := h _ (List.mem_cons_self _ _)
      simp [isClick] at this
    | moveTo q =>
      cases t with
      | nil => rfl
      | cons f t' =>
        have hf : isClick f = false := ht f (List.mem_cons_self _ _)
        cases f with
        | click b c => simp [isClick] at hf
        | status s => simpa [clicksPrecededBy] using hih
        | progress n => simpa [clicksPrecededBy] using hih
        | error s => simpa [clicksPrecededBy] using hih
        | finished => simpa [clicksPrecededBy] using hih
        | moveTo q2 => simpa [clicksPrecededBy] using hih
        | sleepMs d => simpa [clicksPrecededBy] using hih
        | poll i b => simpa [clicksPrecededBy] using hih
    | status s => simpa [clicksPrecededBy] using hih
    | progress n => simpa [clicksPrecededBy] using hih
    | error s => simpa [clicksPrecededBy] using hih
    | finished => simpa [clicksPrecededBy] using hih
    | sleepMs d => simpa [clicksPrecededBy] using hih
    | poll i b => simpa [clicksPrecededBy] using hih

/-- In fixed-target mode, the main loop followed by any click-free and
move-free tail satisfies the move-before-click discipline. -/
theorem mainLoop_clicksPrecededBy_tail (w : ClickWorker) (env : Env) (p : Int × Int)
    (hm : w.target_mode = "fixed") (hp : w.target_pos = some p)
    (tail : List Event) (htail : ∀ e ∈ tail, isClick e = false ∧ isMove e = false) :
    ∀ fuel k mIdx cIdx performed clock,
      clicksPrecededBy p
        ((ClickWorker.mainLoop w env fuel k mIdx cIdx performed clock).1 ++ tail) = true := by
  have htail' : ∀ e ∈ tail, isClick e = false := fun e he => (htail e he).1
  intro fuel
  induction fuel with
  | zero =>
    intro k mIdx cIdx performed clock
    simpa [ClickWorker.mainLoop] using clicksPrecededBy_of_noclick p tail htail'
  | succ n ih =>
    intro k mIdx cIdx performed clock
    simp only [ClickWorker.mainLoop]
    split
    · simp only [List.cons_append, List.nil_append, clicksPrecededBy]
      exact clicksPrecededBy_of_noclick p tail htail'
    · split
      · simp only [List.cons_append, List.nil_append, clicksPrecededBy]
        exact clicksPrecededBy_of_noclick p tail htail'
      · split
        · rw [move_to_target_if_needed_fixed w env _ p hm hp]
          simp only [List.cons_append, List.nil_append, clicksPrecededBy]
          refine clicksPrecededBy_of_noclick p _ ?_
          intro e he
          rcases List.mem_cons.mp he with rfl | he
          · rfl
          · exact htail' e he
        · split
          · rw [move_to_target_if_needed_fixed w env _ p hm hp, click_once_events]
            simp only [List.cons_append, List.nil_append, List.singleton_append,
              List.append_assoc]
            simp [clicksPrecededBy, clicksPrecededBy_of_noclick p tail htail']
          · rw [move_to_target_if_needed_fixed w env _ p hm hp, click_once_events]
            simp only [List.cons_append, List.nil_append, List.singleton_append,
              List.append_assoc]
            simp only [clicksPrecededBy, decide_eq_true_eq]
            rw [clicksPrecededBy_append_skip p _ _ (waitLoop_skip env _ _ _)]
            simp [ih]

/-! ### Observations of a full run -/

/-- The progress events of a run are exactly those of its main loop
(and there are none at all on the abort and listener-failure paths). -/
theorem progressValues_run (w : ClickWorker) (env : Env) (fuel : Nat) :
    progressValues (w.run env fuel).events = [] ∨
    progressValues (w.run env fuel).events = progressValues (mainPhase w env fuel).1 := by
  rcases run_cases w env fuel with ⟨hab, hrun⟩ | ⟨hab, hlf, hrun⟩ | ⟨hab, hlf, hfo, hrun⟩ |
    ⟨hab, hlf, herr, hrun⟩ | ⟨hab, hlf, k, p, hml, hrun⟩ <;> rw [hrun]
  · left
    simp [progressValues_append, progressValues_countdownPhase, progressValues_cons,
      progressValues_nil]
  · left
    simp [progressValues_append, progressValues_countdownPhase, progressValues_cons,
      progressValues_nil]
  · right
    simp [progressValues_append, progressValues_countdownPhase, progressValues_cons,
      progressValues_nil]
  · right
    simp [progressValues_append, progressValues_countdownPhase, progressValues_cons,
      progressValues_nil]
  · right
    simp [progressValues_append, progressValues_countdownPhase, progressValues_cons,
      progressValues_nil]

/-- The click invocations of a run are exactly those of its main loop
(and there are none at all on the abort and listener-failure paths). -/
theorem clickCounts_run (w : ClickWorker) (env : Env) (fuel : Nat) :
    clickCounts (w.run env fuel).events = [] ∨
    clickCounts (w.run env fuel).events = clickCounts (mainPhase w env fuel).1 := by
  rcases run_cases w env fuel with ⟨hab, hrun⟩ | ⟨hab, hlf, hrun⟩ | ⟨hab, hlf, hfo, hrun⟩ |
    ⟨hab, hlf, herr, hrun⟩ | ⟨hab, hlf, k, p, hml, hrun⟩ <;> rw [hrun]
  · left
    simp [clickCounts_append, clickCounts_countdownPhase, clickCounts_cons, clickCounts_nil]
  · left
    simp [clickCounts_append, clickCounts_countdownPhase, clickCounts_cons, clickCounts_nil]
  · right
    simp [clickCounts_append, clickCounts_countdownPhase, clickCounts_cons, clickCounts_nil]
  · right
    simp [clickCounts_append, clickCounts_countdownPhase, clickCounts_cons, clickCounts_nil]
  · right
    simp [clickCounts_append, clickCounts_countdownPhase, clickCounts_cons, clickCounts_nil]

/-! ### First driver failure during the main loop -/

/-- With no stop request, every read of the stop flag returns false. -/
theorem stopRead_none (env : Env) (h : env.stopAt = none) :
    ∀ i, stopRead env i = false := by
  intro i
  simp [stopRead, h]

/-- With no stop request, the countdown phase never aborts. -/
theorem countdownPhase_no_stop (w : ClickWorker) (env : Env) (h : env.stopAt = none) :
    (countdownPhase w env).2.2 = false := by
  rcases hcd : w.countdown with _ | _
  · rw [countdownPhase_off w env hcd]
  · rcases hb : (countdownPhase w env).2.2 with _ | _
    · rfl
    · obtain ⟨n, hn, _⟩ := (countdownPhase_abort_iff w env hcd).mp hb
      rw [h] at hn
      cases hn

/-- When the oracle never fails a move, the move helper never raises. -/
theorem move_fail_flag (w : ClickWorker) (env : Env) (hmf : ∀ i, env.moveFail i = false) :
    ∀ i, (w.move_to_target_if_needed env i).2.2 = false := by
  intro i
  unfold ClickWorker.move_to_target_if_needed
  split
  · split
    · simp [hmf]
    · rfl
  · rfl

/-- The click invocation index advances by exactly one per action. -/
theorem click_once_idx (w : ClickWorker) (env : Env) (c : Nat) :
    ∀ r : Int, (w.click_once env c r).2.1 = c + 1 := fun _ => rfl

/-- A click invocation whose oracle entry fails raises. -/
theorem click_once_fails (w : ClickWorker) (env : Env) (c : Nat) (hc : env.clickFail c = true) :
    ∀ r : Int, (w.click_once env c r).2.2 = none := by
  intro r
  unfold ClickWorker.click_once
  simp [hc]

/-- In a single-click mode, a click invocation whose oracle entry does
not fail produces exactly one physical click. -/
theorem click_once_one (w : ClickWorker) (env : Env) (c : Nat)
    (hone : ∀ r : Int, requestedClicks w.mode r = 1) (hc : env.clickFail c = false) :
    ∀ r : Int, (w.click_once env c r).2.2 = some 1 := by
  intro r
  unfold ClickWorker.click_once
  simp [hc, hone r]

/-- A bounded single-click-mode loop whose first driver failure is the
click invocation with index `j`: starting `d` actions before the
failure with `performed = p`, the loop performs exactly `d` more
successful clicks (progress values `p+1 … p+d`), attempts the failing
click exactly once (`d + 1` click invocations in total, no retry), and
exits `errored` with the local counter still at `p + d`. -/
theorem mainLoop_click_failure (w : ClickWorker) (env : Env) (T j : Nat)
    (hT : w.total_clicks = some T) (hone : ∀ r : Int, requestedClicks w.mode r = 1)
    (hstop : env.stopAt = none) (hmf : ∀ i, env.moveFail i = false)
    (hcf : ∀ i, i < j → env.clickFail i = false) (hcj : env.clickFail j = true) :
    ∀ d fuel k mIdx c p clock, c + d = j → d + 1 ≤ fuel → p + d < T →
      progressValues (ClickWorker.mainLoop w env fuel k mIdx c p clock).1 =
          List.range' (p + 1) d ∧
        countClicks (ClickWorker.mainLoop w env fuel k mIdx c p clock).1 = d + 1 ∧
        ∃ ke, (ClickWorker.mainLoop w env fuel k mIdx c p clock).2 =
          LoopExit.errored ke (p + d) := by
  have hsr := stopRead_none env hstop
  have hmvf := move_fail_flag w env hmf
  intro d
  induction d with
  | zero =>
    intro fuel k mIdx c p clock hcd hfuel hlt
    obtain ⟨f, rfl⟩ : ∃ f, fuel = f + 1 := ⟨fuel - 1, by omega⟩
    have hcjc : env.clickFail c = true := by
      have hcj2 : c = j := by omega
      rw [hcj2]
      exact hcj
    simp only [ClickWorker.mainLoop]
    split
    · next h => rw [hsr] at h; cases h
    · split
      · next h =>
        rw [hT] at h
        simp only [Option.map_some', shouldBreak, decide_eq_true_eq] at h
        omega
      · split
        · next h => rw [hmvf] at h; cases h
        · split
          · refine ⟨?_, ?_, k + 1, ?_⟩
            · simp [progressValues_cons, progressValues_append, progressValues_move,
                progressValues_click, progressValues_nil, List.range']
            · simp [countClicks_cons, countClicks_append, countClicks_move,
                countClicks_click, countClicks_nil, isClick]
            · simp
          · next produced heq =>
            rw [click_once_fails w env c hcjc] at heq
            cases heq
  | succ d ihd =>
    intro fuel k mIdx c p clock hcd hfuel hlt
    obtain ⟨f, rfl⟩ : ∃ f, fuel = f + 1 := ⟨fuel - 1, by omega⟩
    have hc : c < j := by omega
    simp only [ClickWorker.mainLoop]
    split
    · next h => rw [hsr] at h; cases h
    · split
      · next h =>
        rw [hT] at h
        simp only [Option.map_some', shouldBreak, decide_eq_true_eq] at h
        omega
      · split
        · next h => rw [hmvf] at h; cases h
        · split
          · next heq =>
            rw [click_once_one w env c hone (hcf c hc)] at heq
            cases heq
          · next produced heq =>
            rw [click_once_one w env c hone (hcf c hc)] at heq
            cases heq
            rw [click_once_idx]
            obtain ⟨ihp, ihc, ke, ihe⟩ :=
              ihd f (waitLoop env (k + 1) clock (clock + max 1 w.interval_ms)).2.1
                (w.move_to_target_if_needed env mIdx).2.1 (c + 1) (p + 1)
                (waitLoop env (k + 1) clock (clock + max 1 w.interval_ms)).2.2
                (by omega) (by omega) (by omega)
            refine ⟨?_, ?_, ke, ?_⟩
            · simp [progressValues_cons, progressValues_append, progressValues_move,
                progressValues_click, progressValues_waitLoop, progressValues_nil,
                ihp, List.range']
            · simp [countClicks_cons, countClicks_append, countClicks_move,
                countClicks_click, countClicks_waitLoop, countClicks_nil, isClick, ihc] <;>
                omega
            · have harith : p + 1 + d = p + (d + 1) := by omega
              rw [harith] at ihe
              exact ihe

/-- A bounded single-click-mode fixed-target loop whose first driver
failure is the move invocation with index `j`: starting `d` actions
before the failure with both invocation indices at `c` and
`performed = p`, the loop performs exactly `d` more move-and-click
pairs, attempts the failing move exactly once (`d + 1` move
invocations, `d` click invocations — no click on the failing iteration
and no retry), and exits `errored` with the counter at `p + d`. -/
theorem mainLoop_move_failure (w : ClickWorker) (env : Env) (T j : Nat) (pt : Int × Int)
    (hT : w.total_clicks = some T) (hone : ∀ r : Int, requestedClicks w.mode r = 1)
    (hstop : env.stopAt = none)
    (hfix : w.target_mode = "fixed") (hp : w.target_pos = some pt)
    (hmf : ∀ i, i < j → env.moveFail i = false) (hmj : env.moveFail j = true)
    (hcf : ∀ i, i < j → env.clickFail i = false) :
    ∀ d fuel k c p clock, c + d = j → d + 1 ≤ fuel → p + d < T →
      progressValues (ClickWorker.mainLoop w env fuel k c c p clock).1 =
          List.range' (p + 1) d ∧
        countClicks (ClickWorker.mainLoop w env fuel k c c p clock).1 = d ∧
        countMoves (ClickWorker.mainLoop w env fuel k c c p clock).1 = d + 1 ∧
        ∃ ke, (ClickWorker.mainLoop w env fuel k c c p clock).2 =
          LoopExit.errored ke (p + d) := by
  have hsr := stopRead_none env hstop
  intro d
  induction d with
  | zero =>
    intro fuel k c p clock hcd hfuel hlt
    obtain ⟨f, rfl⟩ : ∃ f, fuel = f + 1 := ⟨fuel - 1, by omega⟩
    simp only [ClickWorker.mainLoop]
    split
    · next h => rw [hsr] at h; cases h
    · split
      · next h =>
        rw [hT] at h
        simp only [Option.map_some', shouldBreak, decide_eq_true_eq] at h
        omega
      · split
        · rw [move_to_target_if_needed_fixed w env c pt hfix hp]
          refine ⟨?_, ?_, ?_, k + 1, ?_⟩
          · simp [progressValues_cons, progressValues_nil, List.range']
          · simp [countClicks_cons, countClicks_nil, isClick]
          · simp [countMoves_cons, countMoves_nil, isMove]
          · simp
        · next h =>
          simp only [move_to_target_if_needed_fixed w env c pt hfix hp] at h
          have hcj2 : c = j := by omega
          rw [hcj2] at h
          simp [hmj] at h
  | succ d ihd =>
    intro fuel k c p clock hcd hfuel hlt
    obtain ⟨f, rfl⟩ : ∃ f, fuel = f + 1 := ⟨fuel - 1, by omega⟩
    have hc : c < j := by omega
    simp only [ClickWorker.mainLoop]
    split
    · next h => rw [hsr] at h; cases h
    · split
      · next h =>
        rw [hT] at h
        simp only [Option.map_some', shouldBreak, decide_eq_true_eq] at h
        omega
      · split
        · next h =>
          simp [move_to_target_if_needed_fixed w env c pt hfix hp, hmf c hc] at h
        · split
          · next heq =>
            rw [click_once_one w env c hone (hcf c hc)] at heq
            cases heq
          · next produced heq =>
            rw [click_once_one w env c hone (hcf c hc)] at heq
            cases heq
            rw [click_once_idx, move_to_target_if_needed_fixed w env c pt hfix hp]
            obtain ⟨ihp, ihc, ihm, ke, ihe⟩ :=
              ihd f (waitLoop env (k + 1) clock (clock + max 1 w.interval_ms)).2.1
                (c + 1) (p + 1)
                (waitLoop env (k + 1) clock (clock + max 1 w.interval_ms)).2.2
                (by omega) (by omega) (by omega)
            refine ⟨?_, ?_, ?_, ke, ?_⟩
            · simp [progressValues_cons, progressValues_append,
                progressValues_click, progressValues_waitLoop, progressValues_nil,
                ihp, List.range']
            · simp [countClicks_cons, countClicks_append,
                countClicks_click, countClicks_waitLoop, countClicks_nil, isClick, ihc] <;>
                omega
            · simp [countMoves_cons, countMoves_append,
                countMoves_click, countMoves_waitLoop, countMoves_nil, isMove, ihm] <;>
                omega
            · have harith : p + 1 + d = p + (d + 1) := by omega
              rw [harith] at ihe
              exact ihe

/-! ### Concrete workers and environments -/

/-- The Double (left) worker with total-clicks 5, no countdown,
follow-cursor target (spec section 8 example). -/
def doubleFiveWorker : ClickWorker :=
  { interval_ms := 1, mode := "Double (left)", total_clicks := some 5,
    countdown := false, target_mode := "follow", target_pos := none }

/-- A Left-mode worker with total-clicks 10 and no countdown. -/
def leftTenWorker : ClickWorker :=
  { interval_ms := 1, mode := "Left", total_clicks := some 10,
    countdown := false, target_mode := "follow", target_pos := none }

/-- A Left-mode worker with the 3-second countdown enabled. -/
def countdownWorker : ClickWorker :=
  { interval_ms := 1, mode := "Left", total_clicks := some 3,
    countdown := true, target_mode := "follow", target_pos := none }

/-- A fixed-target worker clicking at (5, 7). -/
def fixedWorker : ClickWorker :=
  { interval_ms := 1, mode := "Left", total_clicks := some 3,
    countdown := false, target_mode := "fixed", target_pos := some (5, 7) }

/-- Environment whose third click invocation (index 2) raises. -/
def envThirdClickFails : Env :=
  { stopAt := none, moveFail := fun _ => false, clickFail := fun i => decide (i = 2),
    listenerFail := false }

/-- Environment whose third move invocation (index 2) raises. -/
def envThirdMoveFails : Env :=
  { stopAt := none, moveFail := fun i => decide (i = 2), clickFail := fun _ => false,
    listenerFail := false }

/-- Environment where the stop request becomes visible from read 1 on
(it arrives while the first countdown second is being slept away). -/
def envStopAt1 : Env :=
  { stopAt := some 1, moveFail := fun _ => false, clickFail := fun _ => false,
    listenerFail := false }

/-- Environment where the stop request becomes visible from read 2 on. -/
def envStopAt2 : Env :=
  { stopAt := some 2, moveFail := fun _ => false, clickFail := fun _ => false,
    listenerFail := false }

/-- Environment where installing the keyboard listener raises. -/
def envListenerFails : Env :=
  { stopAt := none, moveFail := fun _ => false, clickFail := fun _ => false,
    listenerFail := true }

/-! ### The claims -/

/-- C1: for every run, the values carried by the progress events are
strictly increasing (the performed counter is non-decreasing and each
progress event carries a strictly larger value than the previous one),
and when total-clicks is bounded, performed never exceeds total-clicks
at any point during or after the run. -/
theorem claim_C1_progress_monotone_bounded (w : ClickWorker) (env : Env) (fuel : Nat) :
    List.Chain' (· < ·) (progressValues (w.run env fuel).events) ∧
    ∀ T : Nat, w.total_clicks = some T →
      ∀ m ∈ progressValues (w.run env fuel).events, m ≤ T := by
  constructor
  · rcases progressValues_run w env fuel with h | h <;> rw [h]
    · simp
    · have hchain := mainLoop_chain w env fuel (countdownPhase w env).2.1 0 0 0 0
      exact (List.chain'_cons'.mp hchain).2
  · intro T hT m hm
    rcases progressValues_run w env fuel with h | h <;> rw [h] at hm
    · simp [progressValues_nil] at hm
    · exact mainLoop_le w env T hT fuel (countdownPhase w env).2.1 0 0 0 0 (Nat.zero_le T) m hm

/-- Witness for C1 on a concrete bounded run. -/
theorem claim_C1_witness :
    List.Chain' (· < ·) (progressValues (doubleFiveWorker.run envOk 10).events) ∧
    ∀ m ∈ progressValues (doubleFiveWorker.run envOk 10).events, m ≤ 5 :=
  ⟨(claim_C1_progress_monotone_bounded doubleFiveWorker envOk 10).1,
   (claim_C1_progress_monotone_bounded doubleFiveWorker envOk 10).2 5 rfl⟩

/-- The Double (left) mode requests 2 physical clicks when the passed
remaining quota is at least 2, and 1 otherwise. -/
theorem requestedClicks_double (r : Int) :
    requestedClicks "Double (left)" r = if 2 ≤ r then 2 else 1 := by
  have h1 : ¬ (("Double (left)" : String) = "Left") := by decide
  have h2 : ¬ (("Double (left)" : String) = "Right") := by decide
  simp [requestedClicks, h1, h2]

/-- C2: in Double (left) mode each action invokes one driver click with
repeat count 2 when the remaining quota is at least 2 and 1 otherwise,
and produces that many physical clicks on success; an unbounded run
always attempts 2; and the bounded run with total-clicks = 5 produces
the physical-click increment sequence [2, 2, 1] (progress values
[2, 4, 5]) and terminates normally with performed = 5 and state
Completed. -/
theorem claim_C2_double_left (w : ClickWorker) (hm : w.mode = "Double (left)") :
    (∀ (env : Env) (cIdx : Nat) (r : Int),
      (w.click_once env cIdx r).1 =
        [Event.click MouseButton.left (if 2 ≤ r then 2 else 1)] ∧
      ∀ produced, (w.click_once env cIdx r).2.2 = some produced →
        produced = if 2 ≤ r then 2 else 1) ∧
    (w.total_clicks = none → ∀ (env : Env) (fuel : Nat),
      ∀ c ∈ clickCounts (w.run env fuel).events, c = 2) ∧
    clickCounts (doubleFiveWorker.run envOk 10).events = [2, 2, 1] ∧
    progressValues (doubleFiveWorker.run envOk 10).events = [2, 4, 5] ∧
    (doubleFiveWorker.run envOk 10).state = some RunState.Completed := by
  refine ⟨?_, ?_, by decide, by decide, by decide⟩
  · intro env cIdx r
    constructor
    · rw [click_once_events, hm, requestedClicks_double]
      have hb : clickButton "Double (left)" = MouseButton.left := by decide
      rw [hb]
    · intro produced hp
      rw [click_once_produced w env cIdx r produced hp, hm, requestedClicks_double]
  · intro hT env fuel c hc
    rcases clickCounts_run w env fuel with h | h <;> rw [h] at hc
    · simp [clickCounts_nil] at hc
    · exact mainLoop_clickCounts_unbounded w env hm hT fuel _ 0 0 0 0 c hc

/-- Witness for C2 on a concrete Double (left) worker. -/
theorem claim_C2_witness :
    doubleFiveWorker.mode = "Double (left)" ∧
    (doubleFiveWorker.click_once envOk 0 5).1 = [Event.click MouseButton.left 2] ∧
    clickCounts (doubleFiveWorker.run envOk 10).events = [2, 2, 1] :=
  ⟨rfl, by
    have h := (claim_C2_double_left doubleFiveWorker rfl).1 envOk 0 5
    simpa using h.1,
   (claim_C2_double_left doubleFiveWorker rfl).2.2.1⟩

/-- C3: if a pointer-driver failure (an exception from a move or from a
click call) occurs on the Nth requested click of a bounded
single-click-mode run (N = j + 1, with N within the requested total and
no cancellation), the run terminates in the Errored state, the reported
performed values are exactly 1 … N-1 (the physical clicks completed
before the failure), exactly one error event is emitted, and the failed
operation is never retried: a click failure shows exactly N click
invocations, and a move failure shows exactly N move invocations and
N-1 click invocations (the failing iteration never reaches its click). -/
theorem claim_C3_driver_error (w : ClickWorker) (env : Env) (T j fuel : Nat)
    (hT : w.total_clicks = some T) (hone : ∀ r : Int, requestedClicks w.mode r = 1)
    (hstop : env.stopAt = none) (hlf : env.listenerFail = false)
    (hj : j < T) (hfuel : j + 1 ≤ fuel) :
    ((∀ i, env.moveFail i = false) → (∀ i, i < j → env.clickFail i = false) →
      env.clickFail j = true →
      (w.run env fuel).state = some RunState.Errored ∧
      progressValues (w.run env fuel).events = List.range' 1 j ∧
      countErrors (w.run env fuel).events = 1 ∧
      countClicks (w.run env fuel).events = j + 1) ∧
    (∀ pt : Int × Int, w.target_mode = "fixed" → w.target_pos = some pt →
      (∀ i, i < j → env.moveFail i = false) → env.moveFail j = true →
      (∀ i, i < j → env.clickFail i = false) →
      (w.run env fuel).state = some RunState.Errored ∧
      progressValues (w.run env fuel).events = List.range' 1 j ∧
      countErrors (w.run env fuel).events = 1 ∧
      countMoves (w.run env fuel).events = j + 1 ∧
      countClicks (w.run env fuel).events = j) := by
  have hab : (countdownPhase w env).2.2 = false := countdownPhase_no_stop w env hstop
  constructor
  · intro hmf hcf hcj
    obtain ⟨hpv, hcc, ke, hex⟩ :=
      mainLoop_click_failure w env T j hT hone hstop hmf hcf hcj j fuel
        (countdownPhase w env).2.1 0 0 0 0 (by omega) hfuel (by omega)
    rcases run_cases w env fuel with ⟨hab2, _⟩ | ⟨_, hlf2, _⟩ | ⟨_, _, ⟨k2, p2, hml⟩, _⟩ |
      ⟨_, _, _, hrun⟩ | ⟨_, _, k2, p2, hml, _⟩
    · rw [hab] at hab2; cases hab2
    · rw [hlf] at hlf2; cases hlf2
    · rw [mainPhase] at hml
      rw [hex] at hml
      cases hml
    · rw [hrun]
      refine ⟨rfl, ?_, ?_, ?_⟩
      · simp [progressValues_append, progressValues_countdownPhase, progressValues_cons,
          progressValues_nil, mainPhase, hpv]
      · simp [countErrors_append, countErrors_countdownPhase, countErrors_cons,
          countErrors_nil, mainPhase, countErrors_mainLoop, isError]
      · simp [countClicks_append, countClicks_countdownPhase, countClicks_cons,
          countClicks_nil, mainPhase, hcc, isClick]
    · rw [mainPhase] at hml
      rw [hex] at hml
      cases hml
  · intro pt hfix hp hmf hmj hcf
    obtain ⟨hpv, hcc, hcm, ke, hex⟩ :=
      mainLoop_move_failure w env T j pt hT hone hstop hfix hp hmf hmj hcf j fuel
        (countdownPhase w env).2.1 0 0 0 (by omega) hfuel (by omega)
    rcases run_cases w env fuel with ⟨hab2, _⟩ | ⟨_, hlf2, _⟩ | ⟨_, _, ⟨k2, p2, hml⟩, _⟩ |
      ⟨_, _, _, hrun⟩ | ⟨_, _, k2, p2, hml, _⟩
    · rw [hab] at hab2; cases hab2
    · rw [hlf] at hlf2; cases hlf2
    · rw [mainPhase] at hml
      rw [hex] at hml
      cases hml
    · rw [hrun]
      refine ⟨rfl, ?_, ?_, ?_, ?_⟩
      · simp [progressValues_append, progressValues_countdownPhase, progressValues_cons,
          progressValues_nil, mainPhase, hpv]
      · simp [countErrors_append, countErrors_countdownPhase, countErrors_cons,
          countErrors_nil, mainPhase, countErrors_mainLoop, isError]
      · simp [countMoves_append, countMoves_countdownPhase, countMoves_cons,
          countMoves_nil, mainPhase, hcm, isMove]
      · simp [countClicks_append, countClicks_countdownPhase, countClicks_cons,
          countClicks_nil, mainPhase, hcc, isClick]
    · rw [mainPhase] at hml
      rw [hex] at hml
      cases hml

/-- Witness for C3: a click failure on the 3rd of 10 requested clicks
of a Left-mode run, and a move failure on the 3rd move of a bounded
fixed-target run. -/
theorem claim_C3_witness :
    ((leftTenWorker.run envThirdClickFails 20).state = some RunState.Errored ∧
     progressValues (leftTenWorker.run envThirdClickFails 20).events = List.range' 1 2 ∧
     countErrors (leftTenWorker.run envThirdClickFails 20).events = 1 ∧
     countClicks (leftTenWorker.run envThirdClickFails 20).events = 3) ∧
    ((fixedWorker.run envThirdMoveFails 20).state = some RunState.Errored ∧
     progressValues (fixedWorker.run envThirdMoveFails 20).events = List.range' 1 2 ∧
     countErrors (fixedWorker.run envThirdMoveFails 20).events = 1 ∧
     countMoves (fixedWorker.run envThirdMoveFails 20).events = 3 ∧
     countClicks (fixedWorker.run envThirdMoveFails 20).events = 2) :=
  ⟨(claim_C3_driver_error leftTenWorker envThirdClickFails 10 2 20 rfl (fun _ => rfl)
      rfl rfl (by omega) (by omega)).1 (fun _ => rfl) (by decide) rfl,
   (claim_C3_driver_error fixedWorker envThirdMoveFails 3 2 20 rfl (fun _ => rfl)
      rfl rfl (by omega) (by omega)).2 (5, 7) rfl rfl (by decide) rfl
      (fun _ _ => rfl)⟩

/-- C4: for every countdown-enabled run whose stop request becomes
visible within the three countdown flag reads, the run terminates in
the Stopped state with no progress events, zero click invocations and
zero move invocations. -/
theorem claim_C4_countdown_cancel (w : ClickWorker) (env : Env) (fuel n : Nat)
    (hc : w.countdown = true) (hs : env.stopAt = some n) (hn : n ≤ 2) :
    (w.run env fuel).state = some RunState.Stopped ∧
    progressValues (w.run env fuel).events = [] ∧
    countClicks (w.run env fuel).events = 0 ∧
    countMoves (w.run env fuel).events = 0 := by
  have hab : (countdownPhase w env).2.2 = true :=
    (countdownPhase_abort_iff w env hc).mpr ⟨n, hs, hn⟩
  rcases run_cases w env fuel with ⟨_, hrun⟩ | ⟨hab2, _, _⟩ | ⟨hab2, _, _, _⟩ |
    ⟨hab2, _, _, _⟩ | ⟨hab2, _, _⟩
  · rw [hrun]
    refine ⟨rfl, ?_, ?_, ?_⟩ <;>
      simp [progressValues_append, progressValues_countdownPhase, progressValues_cons,
        progressValues_nil, countClicks_append, countClicks_countdownPhase, countClicks_cons,
        countClicks_nil, isClick, countMoves_append, countMoves_countdownPhase,
        countMoves_cons, countMoves_nil, isMove]
  all_goals rw [hab] at hab2; cases hab2

/-- Witness for C4 on a concrete cancelled countdown. -/
theorem claim_C4_witness :
    countdownWorker.countdown = true ∧ envStopAt2.stopAt = some 2 ∧ 2 ≤ 2 ∧
    ((countdownWorker.run envStopAt2 10).state = some RunState.Stopped ∧
     progressValues (countdownWorker.run envStopAt2 10).events = [] ∧
     countClicks (countdownWorker.run envStopAt2 10).events = 0 ∧
     countMoves (countdownWorker.run envStopAt2 10).events = 0) :=
  ⟨rfl, rfl, by omega, claim_C4_countdown_cancel countdownWorker envStopAt2 10 2 rfl rfl (by omega)⟩

/-- C5 counterexample: with the stop request arriving during the first
countdown second (visible from flag read 1 on), the countdown still
blocks in one single atomic 1000 ms sleep — the whole trace is one
poll, one status, one uninterrupted full-second sleep, and only then
the abort; no sub-second sleep chunk and no poll occurs inside the
wait.  This refutes the claim that the countdown wait is
cancellation-interruptible and cut short within a polling quantum. -/
theorem claim_C5_counterexample :
    (countdownLoop envStopAt1 0 [3, 2, 1]).1 =
      [Event.poll 0 false,
       Event.status "Starting in 3... (press ESC to cancel)",
       Event.sleepMs 1000,
       Event.poll 1 true,
       Event.status "Start aborted.",
       Event.finished] ∧
    sleepDurations (countdownLoop envStopAt1 0 [3, 2, 1]).1 = [1000] := by decide

/-- C5 (amended): each countdown tick blocks in a single
uninterruptible full-second `time.sleep(1)` — every sleep event of the
countdown lasts exactly 1000 ms — and the stop flag is polled only
before each tick (at most three polls in the whole countdown), never
inside a sleep; so a cancellation requested mid-sleep is observed only
at the next tick boundary, not within the wait. -/
theorem claim_C5_amended_countdown_sleep (env : Env) (k : Nat) :
    (∀ d ∈ sleepDurations (countdownLoop env k [3, 2, 1]).1, d = 1000) ∧
    countPolls (countdownLoop env k [3, 2, 1]).1 ≤ 3 :=
  ⟨sleepDurations_countdownLoop env [3, 2, 1] k,
   countPolls_countdownLoop env [3, 2, 1] k⟩

/-- Witness for the amended C5 on a concrete countdown. -/
theorem claim_C5_amended_witness :
    1000 ∈ sleepDurations (countdownLoop envStopAt1 0 [3, 2, 1]).1 ∧
    1000 = 1000 ∧
    countPolls (countdownLoop envStopAt1 0 [3, 2, 1]).1 ≤ 3 :=
  ⟨by decide,
   (claim_C5_amended_countdown_sleep envStopAt1 0).1 1000 (by decide),
   (claim_C5_amended_countdown_sleep envStopAt1 0).2⟩

/-- C6: every sleep chunk of the inter-click wait loop lasts at most
10 ms, and a stop request visible at a poll of the wait loop makes the
wait return immediately with no further sleep; so a cancellation
arriving mid-wait is observed after at most one in-flight chunk of at
most 10 ms, not at the next interval boundary. -/
theorem claim_C6_wait_polling (env : Env) :
    (∀ target fuel k clock,
      ∀ d ∈ sleepDurations (waitLoopAux env target fuel k clock).1, d ≤ 10) ∧
    (∀ k clock target, stopRead env k = true →
      waitLoop env k clock target = ([Event.poll k true], k + 1, clock)) := by
  constructor
  · intro target fuel k clock d hd
    rw [sleepDurations] at hd
    simp only [List.mem_filterMap] at hd
    obtain ⟨e, he, hmatch⟩ := hd
    rcases waitLoopAux_mem env target fuel k clock e he with ⟨i, b, rfl⟩ | ⟨d2, rfl, hle⟩
    · simp at hmatch
    · simp at hmatch
      omega
  · intro k clock target h
    unfold waitLoop
    cases htc : target - clock with
    | zero => simp [waitLoopAux, h]
    | succ m => simp [waitLoopAux, h]

/-- Witness for C6 on a concrete wait (25 ms interval: chunks
[10, 10, 5]) and a concrete pending stop request. -/
theorem claim_C6_witness :
    (10 ∈ sleepDurations (waitLoopAux envOk 25 25 0 0).1 ∧ 10 ≤ 10) ∧
    stopRead envStopAt1 1 = true ∧
    waitLoop envStopAt1 1 0 100 = ([Event.poll 1 true], 2, 0) :=
  ⟨⟨by decide, (claim_C6_wait_polling envOk).1 25 25 0 0 10 (by decide)⟩,
   by decide,
   (claim_C6_wait_polling envStopAt1).2 1 0 100 (by decide)⟩

/-- C7: in fixed-target mode with configured position p, every click
invocation of the run is immediately preceded by a driver move to
exactly p and every move of the run targets that same p on every
iteration; in follow-cursor mode, the run never invokes a pointer
move. -/
theorem claim_C7_targeting (w : ClickWorker) (env : Env) (fuel : Nat) :
    (∀ p : Int × Int, w.target_mode = "fixed" → w.target_pos = some p →
      clicksPrecededBy p (w.run env fuel).events = true ∧
      ∀ q ∈ moveTargets (w.run env fuel).events, q = p) ∧
    (w.target_mode = "follow" → countMoves (w.run env fuel).events = 0) := by
  constructor
  · intro p hfix hp
    rcases run_cases w env fuel with ⟨hab, hrun⟩ | ⟨hab, hlf, hrun⟩ | ⟨hab, hlf, hfo, hrun⟩ |
      ⟨hab, hlf, herr, hrun⟩ | ⟨hab, hlf, k, kp, hml, hrun⟩ <;> rw [hrun] <;> dsimp only
    · constructor
      · apply clicksPrecededBy_of_noclick
        intro e he
        rcases List.mem_append.mp he with he | he
        · exact (countdownPhase_skip w env e he).1
        · simp only [List.mem_singleton] at he
          subst he
          rfl
      · intro q hq
        simp [moveTargets_append, moveTargets_countdownPhase, moveTargets_cons,
          moveTargets_nil] at hq
    · constructor
      · apply clicksPrecededBy_of_noclick
        intro e he
        rcases List.mem_append.mp he with he | he
        · exact (countdownPhase_skip w env e he).1
        · simp only [List.mem_cons, List.not_mem_nil, or_false] at he
          rcases he with rfl | rfl <;> rfl
      · intro q hq
        simp [moveTargets_append, moveTargets_countdownPhase, moveTargets_cons,
          moveTargets_nil] at hq
    · constructor
      · rw [clicksPrecededBy_append_skip p _ _ (countdownPhase_skip w env)]
        have hshape : Event.status "Running (ESC to stop)..." :: (mainPhase w env fuel).1 =
            [Event.status "Running (ESC to stop)..."] ++ (mainPhase w env fuel).1 := rfl
        rw [hshape, clicksPrecededBy_append_skip p _ _ (by
          intro e he
          simp only [List.mem_singleton] at he
          subst he
          exact ⟨rfl, rfl⟩)]
        exact mainLoop_clicksPrecededBy w env p hfix hp fuel _ 0 0 0 0
      · intro q hq
        simp [moveTargets_append, moveTargets_countdownPhase, moveTargets_cons,
          moveTargets_nil] at hq
        exact mainLoop_moveTargets_fixed w env p hp fuel _ 0 0 0 0 q hq
    · constructor
      · rw [List.append_assoc, clicksPrecededBy_append_skip p _ _ (countdownPhase_skip w env),
          List.cons_append]
        simp only [clicksPrecededBy]
        refine mainLoop_clicksPrecededBy_tail w env p hfix hp _ ?_ fuel _ 0 0 0 0
        intro e he
        simp only [List.mem_cons, List.not_mem_nil, or_false] at he
        rcases he with rfl | rfl <;> exact ⟨rfl, rfl⟩
      · intro q hq
        simp [moveTargets_append, moveTargets_countdownPhase, moveTargets_cons,
          moveTargets_nil] at hq
        exact mainLoop_moveTargets_fixed w env p hp fuel _ 0 0 0 0 q hq
    · constructor
      · rw [List.append_assoc, clicksPrecededBy_append_skip p _ _ (countdownPhase_skip w env),
          List.cons_append]
        simp only [clicksPrecededBy]
        refine mainLoop_clicksPrecededBy_tail w env p hfix hp _ ?_ fuel _ 0 0 0 0
        intro e he
        simp only [List.mem_cons, List.not_mem_nil, or_false] at he
        rcases he with rfl | rfl | rfl <;> exact ⟨rfl, rfl⟩
      · intro q hq
        simp [moveTargets_append, moveTargets_countdownPhase, moveTargets_cons,
          moveTargets_nil] at hq
        exact mainLoop_moveTargets_fixed w env p hp fuel _ 0 0 0 0 q hq
  · intro hfol
    have hf : ¬ w.target_mode = "fixed" := by
      rw [hfol]
      decide
    rcases run_cases w env fuel with ⟨hab, hrun⟩ | ⟨hab, hlf, hrun⟩ | ⟨hab, hlf, hfo, hrun⟩ |
      ⟨hab, hlf, herr, hrun⟩ | ⟨hab, hlf, k, kp, hml, hrun⟩ <;> rw [hrun] <;>
      simp [countMoves_append, countMoves_countdownPhase, countMoves_cons, countMoves_nil,
        mainPhase, countMoves_mainLoop_follow w env hf, isMove]

/-- Witness for C7 on a concrete fixed-target run and a concrete
follow run. -/
theorem claim_C7_witness :
    (clicksPrecededBy (5, 7) (fixedWorker.run envOk 10).events = true ∧
      ∀ q ∈ moveTargets (fixedWorker.run envOk 10).events, q = (5, 7)) ∧
    countMoves (leftTenWorker.run envOk 20).events = 0 :=
  ⟨(claim_C7_targeting fixedWorker envOk 10).1 (5, 7) rfl rfl,
   (claim_C7_targeting leftTenWorker envOk 20).2 rfl⟩

/-- C8 counterexample: when installing the global key listener raises,
the run does NOT continue clicking with a non-fatal status notice —
it terminates in the Errored state with an error event and performs
zero clicks. -/
theorem claim_C8_counterexample :
    (leftTenWorker.run envListenerFails 20).state = some RunState.Errored ∧
    countClicks (leftTenWorker.run envListenerFails 20).events = 0 ∧
    progressValues (leftTenWorker.run envListenerFails 20).events = [] ∧
    countErrors (leftTenWorker.run envListenerFails 20).events = 1 := by decide

/-- C8 (amended): `_start_keyboard_listener` is not guarded — in every
run that reaches the listener installation (the countdown, if any, was
not aborted), a raise while installing the global key listener reaches
the generic `except Exception` handler of `run`: the run aborts before
any pointer-driver call, emits exactly one error event (no non-fatal
status notice), ends in the Errored state, and the `finally` teardown
still leaves no listener installed. -/
theorem claim_C8_amended_listener_failure (w : ClickWorker) (env : Env) (fuel : Nat)
    (hab : (countdownPhase w env).2.2 = false) (hlf : env.listenerFail = true) :
    (w.run env fuel).state = some RunState.Errored ∧
    countClicks (w.run env fuel).events = 0 ∧
    countMoves (w.run env fuel).events = 0 ∧
    progressValues (w.run env fuel).events = [] ∧
    countErrors (w.run env fuel).events = 1 ∧
    (w.run env fuel).listener = false := by
  rcases run_cases w env fuel with ⟨hab2, _⟩ | ⟨_, _, hrun⟩ | ⟨_, hlf2, _, _⟩ |
    ⟨_, hlf2, _, _⟩ | ⟨_, hlf2, _⟩
  · rw [hab] at hab2; cases hab2
  · rw [hrun]
    refine ⟨rfl, ?_, ?_, ?_, ?_, rfl⟩
    · simp [countClicks_append, countClicks_countdownPhase, countClicks_cons,
        countClicks_nil, isClick]
    · simp [countMoves_append, countMoves_countdownPhase, countMoves_cons,
        countMoves_nil, isMove]
    · simp [progressValues_append, progressValues_countdownPhase, progressValues_cons,
        progressValues_nil]
    · simp [countErrors_append, countErrors_countdownPhase, countErrors_cons,
        countErrors_nil, isError]
  all_goals rw [hlf] at hlf2; cases hlf2

/-- Witness for the amended C8 on a concrete run. -/
theorem claim_C8_amended_witness :
    (countdownPhase leftTenWorker envListenerFails).2.2 = false ∧
    envListenerFails.listenerFail = true ∧
    ((leftTenWorker.run envListenerFails 20).state = some RunState.Errored ∧
     countClicks (leftTenWorker.run envListenerFails 20).events = 0 ∧
     countMoves (leftTenWorker.run envListenerFails 20).events = 0 ∧
     progressValues (leftTenWorker.run envListenerFails 20).events = [] ∧
     countErrors (leftTenWorker.run envListenerFails 20).events = 1 ∧
     (leftTenWorker.run envListenerFails 20).listener = false) :=
  ⟨rfl, rfl, claim_C8_amended_listener_failure leftTenWorker envListenerFails 20 rfl rfl⟩

/-- C9: on every terminating exit path of `ClickWorker.run` — normal
completion, user cancellation, countdown abort, driver error, or
listener-installation failure — the keyboard listener is down when the
run returns; no listener resource outlives a finished run. -/
theorem claim_C9_listener_teardown (w : ClickWorker) (env : Env) (fuel : Nat)
    (s : RunState) (h : (w.run env fuel).state = some s) :
    (w.run env fuel).listener = false := by
  rcases run_cases w env fuel with ⟨_, hrun⟩ | ⟨_, _, hrun⟩ | ⟨_, _, _, hrun⟩ |
    ⟨_, _, _, hrun⟩ | ⟨_, _, k, p, _, hrun⟩ <;> rw [hrun] at h ⊢ <;> simp at h ⊢

/-- Witness for C9 on a concrete completed run. -/
theorem claim_C9_witness :
    (leftTenWorker.run envOk 20).state = some RunState.Completed ∧
    (leftTenWorker.run envOk 20).listener = false :=
  ⟨by decide, claim_C9_listener_teardown leftTenWorker envOk 20 RunState.Completed (by decide)⟩

/-- C10: a countdown-enabled run cancelled during the countdown emits
the finished signal exactly twice (once at the early return inside the
countdown loop, once more from the `finally` block); every other
terminating run path emits finished exactly once. -/
theorem claim_C10_finished_signal_count (w : ClickWorker) (env : Env) (fuel : Nat) :
    (∀ n : Nat, w.countdown = true → env.stopAt = some n → n ≤ 2 →
      countFinished (w.run env fuel).events = 2) ∧
    ((countdownPhase w env).2.2 = false →
      ∀ s, (w.run env fuel).state = some s →
        countFinished (w.run env fuel).events = 1) := by
  constructor
  · intro n hc hs hn
    have hab : (countdownPhase w env).2.2 = true :=
      (countdownPhase_abort_iff w env hc).mpr ⟨n, hs, hn⟩
    rcases run_cases w env fuel with ⟨_, hrun⟩ | ⟨hab2, _, _⟩ | ⟨hab2, _, _, _⟩ |
      ⟨hab2, _, _, _⟩ | ⟨hab2, _, _⟩
    · rw [hrun]
      simp [countFinished_append, countFinished_countdownPhase, hab, countFinished_cons,
        countFinished_nil, isFinished]
    all_goals rw [hab] at hab2; cases hab2
  · intro hab s hst
    rcases run_cases w env fuel with ⟨hab2, _⟩ | ⟨_, _, hrun⟩ | ⟨_, _, _, hrun⟩ |
      ⟨_, _, _, hrun⟩ | ⟨_, _, k, p, _, hrun⟩
    · rw [hab] at hab2
      cases hab2
    · rw [hrun]
      simp [countFinished_append, countFinished_countdownPhase, hab, countFinished_cons,
        countFinished_nil, isFinished]
    · rw [hrun] at hst
      simp at hst
    · rw [hrun]
      simp [countFinished_append, countFinished_countdownPhase, hab, countFinished_cons,
        countFinished_nil, mainPhase, countFinished_mainLoop, isFinished]
    · rw [hrun]
      simp [countFinished_append, countFinished_countdownPhase, hab, countFinished_cons,
        countFinished_nil, mainPhase, countFinished_mainLoop, isFinished]

/-- Witness for C10: a cancelled countdown emits finished twice; a
normally completed run emits it once. -/
theorem claim_C10_witness :
    countFinished (countdownWorker.run envStopAt2 10).events = 2 ∧
    countFinished (leftTenWorker.run envOk 20).events = 1 :=
  ⟨(claim_C10_finished_signal_count countdownWorker envStopAt2 10).1 2 rfl rfl (by omega),
   (claim_C10_finished_signal_count leftTenWorker envOk 20).2 (by decide)
     RunState.Completed (by decide)⟩

end AutoClicker
